import Mathlib

/-!
# Verification of the delve expression evaluator core (pkg/proc/eval.go)

This file gives a shallow embedding, in Lean 4, of the fragments of
`pkg/proc/eval.go` that the specification's claims are about, and proves
(or refutes) each claim against that embedding.

Modelling conventions, used throughout:

* Go `uint64` values are modelled as `Nat` together with explicit
  `% 2^64` reductions wherever the Go code can wrap; Go `int64`/`int`
  values are modelled as `Int` (64-bit truncation is made explicit at
  the conversion points the source performs).
* Go errors are modelled as `String` values carrying the same message
  the source formats; fallible functions return `Except String _`.
* A Go panic that the interpreter's per-opcode `recover` would catch is
  modelled as an `Except.error` carrying a `"runtime panic:"`-prefixed
  message.  The claims under study never reach these paths.
* Pointer identity with the `nilVariable` singleton (`xv == nilVariable`
  in Go) is modelled by a dedicated `isNilSentinel` field that is set
  only on the embedded `nilVariable` value.
* Functions of the repository that are *not* part of `pkg/proc/eval.go`
  (e.g. `loadValue`, `newVariable`, `mapIterator`, the
  `variablesByDepthAndDeclLine` comparator) are modelled from the
  specification; each such definition carries a doc comment starting
  with `Modelled from the spec:`.
* Go strings are modelled as Lean `String` viewed as a sequence of
  characters; all concrete strings appearing in theorems are ASCII, for
  which Go's byte-level length and indexing agree with the model.
-/

namespace DelveEval

/-! ## Machine-integer helpers (uint64 / int64 semantics) -/

/-- The uint64 modulus `2^64`. -/
def U64 : Nat := 2 ^ 64

/-- Wrapping uint64 addition. -/
def add64 (a b : Nat) : Nat := (a + b) % U64

/-- Wrapping uint64 subtraction (`a - b` in Go uint64 arithmetic),
assuming `a < 2^64`. -/
def sub64 (a b : Nat) : Nat := (a + U64 - b % U64) % U64

/-- Go's conversion of a (possibly negative) integer to `uint64`
(two's-complement wraparound). -/
def intToUint64 (i : Int) : Nat := (i.emod (2 ^ 64)).toNat

/-- Go's truncation of an arbitrary-precision integer to `int64`
(two's-complement wraparound), as performed by `constant.Int64Val`. -/
def intToInt64 (i : Int) : Int := (i + 2 ^ 63).emod (2 ^ 64) - 2 ^ 63

/-- Go `x << k` on uint64 (shift counts `≥ 64` yield 0). -/
def shl64 (a k : Nat) : Nat := (a <<< k) % U64

/-- Go `x >> k` on uint64 (shift counts `≥ 64` yield 0); for `a < 2^64`
the `Nat` right shift already has this semantics. -/
def shr64 (a k : Nat) : Nat := a >>> k

/-- Go `^x` on uint64 (bitwise complement), for `x < 2^64`. -/
def not64 (x : Nat) : Nat := U64 - 1 - x

/-! ## `convertInt` (eval.go:1520-1529)

```go
func convertInt(n uint64, signed bool, size int64) uint64 {
    bits := uint64(size) * 8
    mask := uint64((1 << bits) - 1)
    r := n & mask
    if signed && (r>>(bits-1)) != 0 {
        // sign extension
        r |= ^uint64(0) &^ mask
    }
    return r
}
```
-/

def convertInt (n : Nat) (signed : Bool) (size : Int) : Nat :=
  let bits : Nat := (intToUint64 size * 8) % U64
  let mask : Nat := sub64 (shl64 1 bits) 1
  let r : Nat := n &&& mask
  if signed ∧ shr64 r (sub64 bits 1) ≠ 0 then
    -- sign extension: `r |= ^uint64(0) &^ mask`
    r ||| (not64 0 &&& not64 mask)
  else
    r

/-! Auxiliary facts about the helpers, used to settle claim C1. -/

theorem U64_eq : U64 = 2 ^ 64 := rfl

theorem mask_eq_of_bits_le (bits : Nat) (h : bits ≤ 64) :
    sub64 (shl64 1 bits) 1 = 2 ^ bits - 1 := by
  unfold sub64 shl64 U64
  rcases Nat.lt_or_ge bits 64 with hb | hb
  · have h1 : (1 <<< bits) = 2 ^ bits := by
      simp [Nat.shiftLeft_eq]
    have h2 : 2 ^ bits < 2 ^ 64 := Nat.pow_lt_pow_right (by norm_num) hb
    rw [h1, Nat.mod_eq_of_lt h2]
    have h3 : 1 % 2 ^ 64 = 1 := by norm_num
    rw [h3]
    have hpos : 1 ≤ 2 ^ bits := Nat.one_le_two_pow
    omega
  · have hbe : bits = 64 := le_antisymm h hb
    subst hbe
    norm_num [Nat.shiftLeft_eq]

theorem and_mask_eq_mod (n bits : Nat) (h : bits ≤ 64) :
    n &&& sub64 (shl64 1 bits) 1 = n % 2 ^ bits := by
  rw [mask_eq_of_bits_le bits h]
  exact Nat.and_pow_two_sub_one_eq_mod n bits

theorem lor_high_eq_add {i : Nat} {a b : Nat} (h : a < 2 ^ i) :
    a ||| 2 ^ i * b = 2 ^ i * b + a := by
  rw [Nat.lor_comm]
  exact (Nat.mul_add_lt_is_or h b).symm

/-- **C1.** For every 64-bit input `n` and destination width of `size`
bytes (`1 ≤ size ≤ 8`), `convertInt n signed size` equals `n` masked to
the low `8*size` bits; when `signed` is set and the top retained bit of
the masked result is set, the bits above the width are filled with ones
(two's-complement sign extension).  Consequently the 64-bit value `-1`
(i.e. `2^64 - 1`) converted to a 1-byte signed width yields `-1` (again
`2^64 - 1` as a uint64) and to a 1-byte unsigned width yields `255`. -/
theorem convertInt_masks_and_sign_extends
    (n : Nat) (signed : Bool) (size : Int)
    (hn : n < 2 ^ 64) (hlo : 1 ≤ size) (hhi : size ≤ 8) :
    (convertInt n signed size =
      if signed = true ∧ Nat.testBit (n % 2 ^ (8 * size.toNat)) (8 * size.toNat - 1) then
        n % 2 ^ (8 * size.toNat) + (2 ^ 64 - 2 ^ (8 * size.toNat))
      else
        n % 2 ^ (8 * size.toNat))
    ∧ convertInt (2 ^ 64 - 1) true 1 = 2 ^ 64 - 1
    ∧ convertInt (2 ^ 64 - 1) false 1 = 255 := by
  refine ⟨?_, by decide, by decide⟩
  have hsz : intToUint64 size = size.toNat := by
    unfold intToUint64
    have : size.emod (2 ^ 64) = size := Int.emod_eq_of_lt (by omega) (by omega)
    rw [this]
  set k : Nat := size.toNat with hk
  have hk1 : 1 ≤ k := by omega
  have hk8 : k ≤ 8 := by omega
  have hbits : (intToUint64 size * 8) % U64 = 8 * k := by
    rw [hsz]
    have : k * 8 < U64 := by unfold U64; omega
    rw [Nat.mod_eq_of_lt this]; ring
  have hble : 8 * k ≤ 64 := by omega
  simp only [convertInt]
  rw [hbits]
  rw [and_mask_eq_mod n (8 * k) hble]
  set r : Nat := n % 2 ^ (8 * k) with hr
  have hrlt : r < 2 ^ (8 * k) := Nat.mod_lt _ (Nat.pos_pow_of_pos _ (by norm_num))
  have hsub1 : sub64 (8 * k) 1 = 8 * k - 1 := by
    unfold sub64 U64
    have h1 : 1 % 2 ^ 64 = 1 := by norm_num
    rw [h1]
    omega
  rw [hsub1]
  have hshift : shr64 r (8 * k - 1) = r / 2 ^ (8 * k - 1) := by
    unfold shr64
    exact Nat.shiftRight_eq_div_pow r (8 * k - 1)
  have hdivlt : r / 2 ^ (8 * k - 1) < 2 := by
    apply Nat.div_lt_of_lt_mul
    have hke : 8 * k = (8 * k - 1) + 1 := by omega
    calc r < 2 ^ (8 * k) := hrlt
    _ = 2 ^ (8 * k - 1) * 2 := by nth_rewrite 1 [hke]; rw [Nat.pow_succ]
  have htb : Nat.testBit r (8 * k - 1) = decide (r / 2 ^ (8 * k - 1) % 2 = 1) :=
    Nat.testBit_to_div_mod
  have hmod2 : r / 2 ^ (8 * k - 1) % 2 = r / 2 ^ (8 * k - 1) :=
    Nat.mod_eq_of_lt hdivlt
  have hcond : (shr64 r (8 * k - 1) ≠ 0) ↔ Nat.testBit r (8 * k - 1) = true := by
    rw [hshift, htb, hmod2]
    constructor
    · intro h
      simp only [decide_eq_true_eq]
      omega
    · intro h
      simp only [decide_eq_true_eq] at h
      omega
  have hmask : sub64 (shl64 1 (8 * k)) 1 = 2 ^ (8 * k) - 1 :=
    mask_eq_of_bits_le (8 * k) hble
  rw [hmask]
  have hnot0 : not64 0 = 2 ^ 64 - 1 := by unfold not64 U64; omega
  have hnotmask : not64 (2 ^ (8 * k) - 1) = 2 ^ 64 - 2 ^ (8 * k) := by
    unfold not64 U64
    have : 2 ^ (8 * k) ≤ 2 ^ 64 := Nat.pow_le_pow_right (by norm_num) hble
    omega
  have handv : not64 0 &&& not64 (2 ^ (8 * k) - 1) = 2 ^ 64 - 2 ^ (8 * k) := by
    rw [hnot0, hnotmask]
    have hlt : 2 ^ 64 - 2 ^ (8 * k) < 2 ^ 64 := by
      have h1 : 0 < 2 ^ (8 * k) := Nat.pos_pow_of_pos _ (by norm_num)
      have h2 : 0 < 2 ^ 64 := by norm_num
      omega
    calc (2 ^ 64 - 1) &&& (2 ^ 64 - 2 ^ (8 * k))
        = (2 ^ 64 - 2 ^ (8 * k)) &&& (2 ^ 64 - 1) := Nat.and_comm _ _
    _ = (2 ^ 64 - 2 ^ (8 * k)) % 2 ^ 64 := Nat.and_pow_two_sub_one_eq_mod _ 64
    _ = 2 ^ 64 - 2 ^ (8 * k) := Nat.mod_eq_of_lt hlt
  have hhilo : r ||| (2 ^ 64 - 2 ^ (8 * k)) = r + (2 ^ 64 - 2 ^ (8 * k)) := by
    have hke : (64 : Nat) = 8 * k + (64 - 8 * k) := by omega
    have hsplit : 2 ^ 64 - 2 ^ (8 * k) = 2 ^ (8 * k) * (2 ^ (64 - 8 * k) - 1) := by
      rw [Nat.mul_sub_one, ← Nat.pow_add, ← hke]
    rw [hsplit, lor_high_eq_add hrlt]
    omega
  rw [handv, hhilo]
  cases signed with
  | false => simp
  | true =>
    by_cases hne : shr64 r (8 * k - 1) ≠ 0
    · rw [if_pos ⟨rfl, hne⟩, if_pos ⟨rfl, hcond.mp hne⟩]
    · have hbitf : ¬ Nat.testBit r (8 * k - 1) = true := fun hb => hne (hcond.mpr hb)
      rw [if_neg (fun h => hne h.2), if_neg (fun h => hbitf h.2)]

/-- Witness for C1: instantiates the theorem at `n = 2^64 - 1`,
`signed = true`, `size = 1`, discharging its hypotheses. -/
theorem convertInt_masks_and_sign_extends_witness :
    (2 ^ 64 - 1 < 2 ^ 64 ∧ (1 : Int) ≤ 1 ∧ (1 : Int) ≤ 8)
    ∧ convertInt (2 ^ 64 - 1) true 1 = 2 ^ 64 - 1 :=
  ⟨⟨by norm_num, le_refl 1, by norm_num⟩,
    (convertInt_masks_and_sign_extends (2 ^ 64 - 1) true 1 (by norm_num)
      (le_refl 1) (by norm_num)).2.1⟩

/-! ## The data model: go/token operators, reflect kinds, go/constant
values, godwarf types, load configurations and the `Variable` value
model used by `pkg/proc`. -/

/-- Comparison operators of `go/token` used by `compareOp`. -/
inductive Token where
  | eql | neq | lss | gtr | leq | geq
  deriving DecidableEq

/-- `token.Token.String()` for the comparison operators. -/
def Token.goString : Token → String
  | .eql => "=="
  | .neq => "!="
  | .lss => "<"
  | .gtr => ">"
  | .leq => "<="
  | .geq => ">="

/-- The subset of `reflect.Kind` used by the evaluator. -/
inductive Kind where
  | invalid
  | bool
  | int | int8 | int16 | int32 | int64
  | uint | uint8 | uint16 | uint32 | uint64 | uintptr
  | float32 | float64
  | complex64 | complex128
  | array | chan | func | interface | map | ptr | slice | string | struct
  deriving DecidableEq

/-- `reflect.Kind.String()` for the kinds that appear in the error
messages of the embedded fragments. -/
def Kind.goString : Kind → String
  | .invalid => "invalid"
  | .bool => "bool"
  | .int => "int" | .int8 => "int8" | .int16 => "int16"
  | .int32 => "int32" | .int64 => "int64"
  | .uint => "uint" | .uint8 => "uint8" | .uint16 => "uint16"
  | .uint32 => "uint32" | .uint64 => "uint64" | .uintptr => "uintptr"
  | .float32 => "float32" | .float64 => "float64"
  | .complex64 => "complex64" | .complex128 => "complex128"
  | .array => "array" | .chan => "chan" | .func => "func"
  | .interface => "interface" | .map => "map" | .ptr => "ptr"
  | .slice => "slice" | .string => "string" | .struct => "struct"

/-- Modelled from the spec: a `go/constant.Value` — an immutable
arbitrary-precision constant (integer / float / complex / bool /
string).  Floats are modelled as rationals, which is exact for the
values the embedded fragments manipulate. -/
inductive GoConst where
  | int (i : Int)
  | flt (q : Rat)
  | cplx (re im : Rat)
  | bool (b : Bool)
  | str (s : String)
  deriving DecidableEq

/-- `go/constant` kind names, used in error messages. -/
def GoConst.goString : GoConst → String
  | .int i => toString i
  | .flt q => toString q
  | .cplx re im => toString re ++ " + " ++ toString im ++ "i"
  | .bool b => if b then "true" else "false"
  | .str s => "\"" ++ s ++ "\""

/-- Modelled from the spec: the `godwarf.Type` descriptors (debug-info
derived types).  Each carries the printed name returned by its
`String()` method. -/
inductive GoType where
  | intType (name : String) (size : Int)
  | uintType (name : String) (size : Int)
  | floatType (name : String) (size : Int)
  | complexType (name : String) (size : Int)
  | boolType (name : String)
  | stringType (name : String)
  | ptrType (name : String) (elem : GoType)
  | arrayType (name : String) (elem : GoType) (count : Int)
  | sliceType (name : String) (elem : GoType)
  | structType (name : String)
  | mapType (name : String)
  | chanType (name : String)
  | funcType (name : String)
  | interfaceType (name : String)
  | typedefType (name : String) (underlying : GoType)
  deriving DecidableEq

/-- The printed name of a type (`godwarf.Type.String()`). -/
def GoType.goString : GoType → String
  | .intType n _ => n
  | .uintType n _ => n
  | .floatType n _ => n
  | .complexType n _ => n
  | .boolType n => n
  | .stringType n => n
  | .ptrType n _ => n
  | .arrayType n _ _ => n
  | .sliceType n _ => n
  | .structType n => n
  | .mapType n => n
  | .chanType n => n
  | .funcType n => n
  | .interfaceType n => n
  | .typedefType n _ => n

/-- Modelled from the spec: `resolveTypedef` strips typedef wrappers
until a non-typedef type is reached. -/
def resolveTypedef : GoType → GoType
  | .typedefType _ u => resolveTypedef u
  | t => t

/-- Modelled from the spec: `godwarf.FakeSliceType` synthesizes a slice
type over the given element type (`nil` element handled defensively). -/
def FakeSliceType (elem : Option GoType) : GoType :=
  match elem with
  | some e => .sliceType ("[]" ++ e.goString) e
  | none => .sliceType "[]" (.structType "")

theorem sizeOf_resolveTypedef_le (t : GoType) : sizeOf (resolveTypedef t) ≤ sizeOf t := by
  induction t with
  | typedefType n u ih =>
      rw [resolveTypedef]
      simp only [GoType.typedefType.sizeOf_spec]
      omega
  | _ => simp [resolveTypedef]

/-- `sameType` (eval.go:2440-2466): type identity modulo typedefs,
recursing through pointer and slice element types, otherwise comparing
printed names. -/
def sameType (t1 t2 : GoType) : Bool :=
  match h1 : resolveTypedef t1, h2 : resolveTypedef t2 with
  | .ptrType _ e1, .ptrType _ e2 => sameType e1 e2
  | .ptrType _ _, _ => false
  | .sliceType _ e1, .sliceType _ e2 => sameType e1 e2
  | .sliceType _ _, _ => false
  | r1, r2 => r1.goString = r2.goString
termination_by sizeOf t1 + sizeOf t2
decreasing_by
  all_goals
    have a1 := sizeOf_resolveTypedef_le t1
    have a2 := sizeOf_resolveTypedef_le t2
    rw [h1] at a1
    rw [h2] at a2
    simp only [GoType.ptrType.sizeOf_spec, GoType.sliceType.sizeOf_spec] at a1 a2
    omega

/-- Modelled from the spec: the `LoadConfig` bounding value loading
(max recursion depth, max string length, max array elements, …). -/
structure LoadConfig where
  followPointers : Bool
  maxVariableRecurse : Int
  maxStringLen : Int
  maxArrayValues : Int
  maxStructFields : Int
  deriving DecidableEq

/-- Modelled from the spec: the default full-load configuration. -/
def loadFullValue : LoadConfig :=
  { followPointers := true, maxVariableRecurse := 1, maxStringLen := 64,
    maxArrayValues := 64, maxStructFields := -1 }

/-- Modelled from the spec: like `loadFullValue` but allowing longer
strings, used when comparing string values. -/
def loadFullValueLongerStrings : LoadConfig :=
  { followPointers := true, maxVariableRecurse := 1, maxStringLen := 1024 * 1024,
    maxArrayValues := 64, maxStructFields := -1 }

/-- Modelled from the spec: the single-value load configuration. -/
def loadSingleValue : LoadConfig :=
  { followPointers := false, maxVariableRecurse := 0, maxStringLen := 64,
    maxArrayValues := 0, maxStructFields := 0 }

/-- Modelled from the spec: a memory accessor handle.  `deref` marks
the wrapper produced by `DereferenceMemory`. -/
inductive Mem where
  | mem (id : Nat)
  | deref (m : Mem)
  deriving DecidableEq

/-- Modelled from the spec: `DereferenceMemory` wraps a memory accessor
for reads that go through a pointer indirection. -/
def DereferenceMemory (m : Mem) : Mem := Mem.deref m

/-! Modelled from the spec: the `VariableFlags` bitset (the constants
live outside eval.go; only their distinctness matters). -/

def VariableEscaped : Nat := 1
def VariableShadowed : Nat := 2
def VariableConstant : Nat := 4
def VariableArgument : Nat := 8
def VariableReturnArgument : Nat := 16
def VariableFakeAddress : Nat := 32
def VariableCPtr : Nat := 64
def VariableCPURegister : Nat := 128

/-- Bitset membership test (`v.Flags&flag != 0`). -/
def hasFlag (flags fl : Nat) : Bool := flags &&& fl ≠ 0

/-- Bitset union (`v.Flags |= flag`). -/
def orFlag (flags fl : Nat) : Nat := flags ||| fl

/-- The scalar fields of a `proc.Variable`. -/
structure VarData where
  name : String
  addr : Nat
  kind : Kind
  dwarfType : Option GoType
  realType : Option GoType
  flags : Nat
  base : Nat
  len : Int
  cap : Int
  stride : Int
  fieldType : Option GoType
  declLine : Int
  loaded : Bool
  value : Option GoConst
  unreadable : Option String
  mapSkip : Int
  reg : Option Nat
  mem : Mem
  isNilSentinel : Bool
  deriving DecidableEq

/-- A `proc.Variable`: scalar data plus loaded children; `mapEntries`
models (from the spec) the key/value sequence produced by the external
map iterator for a map-kinded Value. -/
inductive Variable where
  | mk (vdata : VarData) (children : List Variable)
      (mapEntries : List (Variable × Variable))

def Variable.vdata : Variable → VarData
  | .mk d _ _ => d

def Variable.children : Variable → List Variable
  | .mk _ c _ => c

def Variable.mapEntries : Variable → List (Variable × Variable)
  | .mk _ _ m => m

def Variable.name (v : Variable) : String := v.vdata.name
def Variable.addr (v : Variable) : Nat := v.vdata.addr
def Variable.kind (v : Variable) : Kind := v.vdata.kind
def Variable.dwarfType (v : Variable) : Option GoType := v.vdata.dwarfType
def Variable.realType (v : Variable) : Option GoType := v.vdata.realType
def Variable.flags (v : Variable) : Nat := v.vdata.flags
def Variable.base (v : Variable) : Nat := v.vdata.base
def Variable.len (v : Variable) : Int := v.vdata.len
def Variable.cap (v : Variable) : Int := v.vdata.cap
def Variable.stride (v : Variable) : Int := v.vdata.stride
def Variable.fieldType (v : Variable) : Option GoType := v.vdata.fieldType
def Variable.declLine (v : Variable) : Int := v.vdata.declLine
def Variable.loaded (v : Variable) : Bool := v.vdata.loaded
def Variable.value (v : Variable) : Option GoConst := v.vdata.value
def Variable.unreadable (v : Variable) : Option String := v.vdata.unreadable
def Variable.mapSkip (v : Variable) : Int := v.vdata.mapSkip
def Variable.reg (v : Variable) : Option Nat := v.vdata.reg
def Variable.mem (v : Variable) : Mem := v.vdata.mem
def Variable.isNilSentinel (v : Variable) : Bool := v.vdata.isNilSentinel

/-- Update the scalar fields of a Variable. -/
def Variable.updData (v : Variable) (f : VarData → VarData) : Variable :=
  Variable.mk (f v.vdata) v.children v.mapEntries

/-- A default scalar record, used to build concrete Values in
theorem statements. -/
def defaultData : VarData :=
  { name := "", addr := 0, kind := Kind.invalid, dwarfType := none,
    realType := none, flags := 0, base := 0, len := 0, cap := 0,
    stride := 0, fieldType := none, declLine := 0, loaded := false,
    value := none, unreadable := none, mapSkip := 0, reg := none,
    mem := Mem.mem 0, isNilSentinel := false }

/-- Modelled from the spec: the kind tag `newVariable` derives from a
type descriptor. -/
def kindOfType : GoType → Kind
  | .intType _ _ => .int
  | .uintType _ _ => .uint
  | .floatType _ _ => .float64
  | .complexType _ _ => .complex128
  | .boolType _ => .bool
  | .stringType _ => .string
  | .ptrType _ _ => .ptr
  | .arrayType _ _ _ => .array
  | .sliceType _ _ => .slice
  | .structType _ => .struct
  | .mapType _ => .map
  | .chanType _ => .chan
  | .funcType _ => .func
  | .interfaceType _ => .interface
  | .typedefType _ u => kindOfType u

/-- Modelled from the spec: `newVariable` constructs a Value from
(name, address, type descriptor, memory accessor) without side
effects; geometry fields are filled in from the type where statically
known. -/
def newVariable (name : String) (addr : Nat) (typ : Option GoType) (mem : Mem) : Variable :=
  let kind := match typ with
    | some t => kindOfType t
    | none => Kind.invalid
  let fieldType : Option GoType := match typ.map resolveTypedef with
    | some (.arrayType _ e _) => some e
    | some (.sliceType _ e) => some e
    | some (.ptrType _ e) => some e
    | _ => none
  let len : Int := match typ.map resolveTypedef with
    | some (.arrayType _ _ c) => c
    | _ => 0
  let base : Nat := match typ.map resolveTypedef with
    | some (.arrayType _ _ _) => addr
    | _ => 0
  Variable.mk
    { defaultData with
        name := name, addr := addr, kind := kind, dwarfType := typ,
        realType := typ.map resolveTypedef, fieldType := fieldType,
        len := len, base := base, mem := mem }
    [] []

/-- Modelled from the spec: the `nilVariable` singleton pushed by
`PushNil` for the `nil` literal; `isNilSentinel` models Go pointer
identity with it. -/
def nilVariable : Variable :=
  Variable.mk
    { defaultData with
        name := "nil", isNilSentinel := true } [] []

/-- `isNil` (eval.go:2310-2320).  The `Children[0]` accesses panic in
Go on an empty children slice; that unreachable path is modelled as
`false`. -/
def Variable.isNil (v : Variable) : Bool :=
  match v.kind with
  | .ptr =>
      match v.children with
      | c :: _ => decide (c.addr = 0)
      | [] => false
  | .interface =>
      match v.children with
      | c :: _ => decide (c.addr = 0) && decide (c.kind = Kind.invalid)
      | [] => false
  | .slice => decide (v.base = 0)
  | .map => decide (v.base = 0)
  | .func => decide (v.base = 0)
  | .chan => decide (v.base = 0)
  | _ => false

/-- The byte of an (ASCII-modelled) Go string at a non-negative index. -/
def byteAt (s : String) (i : Int) : Int :=
  match s.toList.get? i.toNat with
  | some c => (c.toNat : Int)
  | none => 0

/-- `sliceAccess` (eval.go:2468-2500). -/
def sliceAccess (v : Variable) (idx : Int) : Except String Variable :=
  if (if hasFlag v.flags VariableCPtr = false then idx < 0 ∨ idx ≥ v.len else idx < 0) then
    .error ("index out of bounds")
  else if v.loaded then
    if v.kind = Kind.string then
      match v.value with
      | some (GoConst.str s) =>
          if idx ≥ (s.length : Int) then
            .error ("index out of bounds")
          else
            .ok ((newVariable "" (add64 v.base (intToUint64 (idx * v.stride)))
                    v.fieldType v.mem).updData
              (fun d => { d with loaded := true, value := some (GoConst.int (byteAt s idx)) }))
      | _ => .error ("runtime panic: constant is not a string")
    else
      if idx ≥ (v.children.length : Int) then
        .error ("index out of bounds")
      else
        match v.children.get? idx.toNat with
        | some c => .ok c
        | none => .error ("runtime panic: index out of range")
  else
    let mem := if v.kind ≠ Kind.array then DereferenceMemory v.mem else v.mem
    .ok (newVariable "" (add64 v.base (intToUint64 (idx * v.stride))) v.fieldType mem)

/-- The direct type assertion `v.DwarfType.(*godwarf.ArrayType)`
performed by `reslice` (it does not resolve typedefs). -/
def isArrayType : Option GoType → Bool
  | some (.arrayType _ _ _) => true
  | _ => false

/-- The Value built by a successful `reslice` (the `r` of
eval.go:2585-2610): `high` is the bound after the C-pointer `high == 0`
adjustment, the new base is `v.Base + uint64(low*v.stride)`, length and
capacity are `high - low`, and stride / element type / flags / register
are shared with `v`. -/
def resliceResult (v : Variable) (low high0 : Int) : Variable :=
  (newVariable "" 0
      (if isArrayType v.dwarfType = true
          ∨ (hasFlag v.flags VariableCPtr = true ∧ v.kind ≠ Kind.string) then
        some (FakeSliceType v.fieldType)
      else v.dwarfType)
      (if v.kind ≠ Kind.array then DereferenceMemory v.mem else v.mem)).updData
    (fun d =>
      { d with
          cap := (if hasFlag v.flags VariableCPtr = true ∧ high0 = 0 then low else high0) - low,
          len := (if hasFlag v.flags VariableCPtr = true ∧ high0 = 0 then low else high0) - low,
          base := add64 v.base (intToUint64 (low * v.stride)),
          stride := v.stride, fieldType := v.fieldType,
          flags := v.flags, reg := v.reg })

/-- `reslice` (eval.go:2569-2612).  `cptr` stands for
`v.Flags&VariableCPtr != 0`; the first guard is the `wrong` check, the
second is the `high-low < 0` check (both report "index out of
bounds"). -/
def reslice (v : Variable) (low high0 : Int) : Except String Variable :=
  if (if hasFlag v.flags VariableCPtr = false
      then low < 0 ∨ low > v.len ∨ high0 < 0 ∨ high0 > v.len
      else low < 0 ∨ high0 < 0) then
    .error ("index out of bounds")
  else if (if hasFlag v.flags VariableCPtr = true ∧ high0 = 0 then low else high0) - low < 0 then
    .error ("index out of bounds")
  else
    .ok (resliceResult v low high0)

theorem resliceResult_base (v : Variable) (low high0 : Int) :
    (resliceResult v low high0).base = add64 v.base (intToUint64 (low * v.stride)) := rfl

theorem resliceResult_len (v : Variable) (low high0 : Int) :
    (resliceResult v low high0).len =
      (if hasFlag v.flags VariableCPtr = true ∧ high0 = 0 then low else high0) - low := rfl

theorem resliceResult_stride (v : Variable) (low high0 : Int) :
    (resliceResult v low high0).stride = v.stride := rfl

theorem resliceResult_flags (v : Variable) (low high0 : Int) :
    (resliceResult v low high0).flags = v.flags := rfl

theorem reslice_ok (v : Variable) (low high0 : Int)
    (hw : ¬ (if hasFlag v.flags VariableCPtr = false
        then low < 0 ∨ low > v.len ∨ high0 < 0 ∨ high0 > v.len
        else low < 0 ∨ high0 < 0))
    (hd : ¬ ((if hasFlag v.flags VariableCPtr = true ∧ high0 = 0 then low else high0) - low < 0)) :
    reslice v low high0 = .ok (resliceResult v low high0) := by
  unfold reslice
  rw [if_neg hw, if_neg hd]

/-! ## Claims C2 and C3: `sliceAccess` bounds/addressing and `reslice`
idempotence. -/

theorem newVariable_addr (n : String) (a : Nat) (t : Option GoType) (m : Mem) :
    (newVariable n a t m).addr = a := rfl

theorem add64_lt (a b : Nat) : add64 a b < U64 :=
  Nat.mod_lt _ (by unfold U64; norm_num)

theorem add64_zero (a : Nat) : add64 a 0 = a % U64 := by
  unfold add64; rw [Nat.add_zero]

theorem add64_add64_zero (a b : Nat) : add64 (add64 a b) 0 = add64 a b := by
  rw [add64_zero, Nat.mod_eq_of_lt (add64_lt a b)]

theorem intToUint64_zero_mul (s : Int) : intToUint64 (0 * s) = 0 := by
  rw [zero_mul]; rfl

/-- A loaded string Value whose loaded contents (`"ab"`) are shorter
than its logical length (5) — the state produced by a truncating
string load. -/
def loadedShortString : Variable :=
  Variable.mk
    { defaultData with
        kind := Kind.string, loaded := true, len := 5,
        value := some (GoConst.str "ab"), base := 1000, stride := 1 } [] []

/-- **C2 counterexample.** The claim states that for a non-C-pointer
Value of string kind, `sliceAccess` fails with "index out of bounds"
*exactly* when `idx < 0 ∨ idx ≥ v.Len`.  For a loaded string whose
loaded contents are shorter than its logical length the code
(eval.go:2481) also rejects in-bounds indexes that fall beyond the
loaded contents: index 3 of a length-5 string Value holding the loaded
bytes "ab" errors despite `0 ≤ 3 < 5`. -/
theorem sliceAccess_exact_bounds_false :
    loadedShortString.kind = Kind.string
    ∧ hasFlag loadedShortString.flags VariableCPtr = false
    ∧ ¬((3 : Int) < 0 ∨ (3 : Int) ≥ loadedShortString.len)
    ∧ sliceAccess loadedShortString 3 = .error ("index out of bounds") := by
  refine ⟨rfl, by decide, by decide, rfl⟩

/-- **C2 (amended).** For every Value `v` of array, slice, or string
kind *that has not yet been loaded*: when the C-pointer flag is clear,
`sliceAccess v idx` fails with "index out of bounds" exactly when
`idx < 0 ∨ idx ≥ v.Len` and otherwise returns a child Value whose
address is `v.Base + idx*stride` (uint64 arithmetic); when the
C-pointer flag is set, only `idx < 0` is rejected. -/
theorem sliceAccess_unloaded_bounds (v : Variable) (idx : Int)
    (hk : v.kind = Kind.array ∨ v.kind = Kind.slice ∨ v.kind = Kind.string)
    (hl : v.loaded = false) :
    (hasFlag v.flags VariableCPtr = false →
      ((sliceAccess v idx = .error ("index out of bounds")) ↔ (idx < 0 ∨ idx ≥ v.len))
      ∧ (¬(idx < 0 ∨ idx ≥ v.len) →
          ∃ r, sliceAccess v idx = .ok r
            ∧ r.addr = add64 v.base (intToUint64 (idx * v.stride))))
    ∧ (hasFlag v.flags VariableCPtr = true →
      ((sliceAccess v idx = .error ("index out of bounds")) ↔ idx < 0)
      ∧ (¬ idx < 0 →
          ∃ r, sliceAccess v idx = .ok r
            ∧ r.addr = add64 v.base (intToUint64 (idx * v.stride)))) := by
  constructor
  · intro hc
    constructor
    · constructor
      · intro herr
        by_contra hnb
        have hcondN : ¬ (if hasFlag v.flags VariableCPtr = false
            then idx < 0 ∨ idx ≥ v.len else idx < 0) := by
          simp only [hc, if_true]
          exact hnb
        have hres : sliceAccess v idx =
            .ok (newVariable "" (add64 v.base (intToUint64 (idx * v.stride))) v.fieldType
              (if v.kind ≠ Kind.array then DereferenceMemory v.mem else v.mem)) := by
          unfold sliceAccess
          rw [if_neg hcondN, hl, if_neg Bool.false_ne_true]
        rw [hres] at herr
        exact Except.noConfusion herr
      · intro hb
        have hcondP : (if hasFlag v.flags VariableCPtr = false
            then idx < 0 ∨ idx ≥ v.len else idx < 0) := by
          simp only [hc, if_true]
          exact hb
        unfold sliceAccess
        rw [if_pos hcondP]
    · intro hb
      have hcondN : ¬ (if hasFlag v.flags VariableCPtr = false
          then idx < 0 ∨ idx ≥ v.len else idx < 0) := by
        simp only [hc, if_true]
        exact hb
      have hres : sliceAccess v idx =
          .ok (newVariable "" (add64 v.base (intToUint64 (idx * v.stride))) v.fieldType
            (if v.kind ≠ Kind.array then DereferenceMemory v.mem else v.mem)) := by
        unfold sliceAccess
        rw [if_neg hcondN, hl, if_neg Bool.false_ne_true]
      exact ⟨_, hres, newVariable_addr _ _ _ _⟩
  · intro hc
    constructor
    · constructor
      · intro herr
        by_contra hnb
        have hcondN : ¬ (if hasFlag v.flags VariableCPtr = false
            then idx < 0 ∨ idx ≥ v.len else idx < 0) := by
          simp only [hc]
          simp only [Bool.true_eq_false, if_false]
          exact hnb
        have hres : sliceAccess v idx =
            .ok (newVariable "" (add64 v.base (intToUint64 (idx * v.stride))) v.fieldType
              (if v.kind ≠ Kind.array then DereferenceMemory v.mem else v.mem)) := by
          unfold sliceAccess
          rw [if_neg hcondN, hl, if_neg Bool.false_ne_true]
        rw [hres] at herr
        exact Except.noConfusion herr
      · intro hb
        have hcondP : (if hasFlag v.flags VariableCPtr = false
            then idx < 0 ∨ idx ≥ v.len else idx < 0) := by
          simp only [hc]
          simp only [Bool.true_eq_false, if_false]
          exact hb
        unfold sliceAccess
        rw [if_pos hcondP]
    · intro hb
      have hcondN : ¬ (if hasFlag v.flags VariableCPtr = false
          then idx < 0 ∨ idx ≥ v.len else idx < 0) := by
        simp only [hc]
        simp only [Bool.true_eq_false, if_false]
        exact hb
      have hres : sliceAccess v idx =
          .ok (newVariable "" (add64 v.base (intToUint64 (idx * v.stride))) v.fieldType
            (if v.kind ≠ Kind.array then DereferenceMemory v.mem else v.mem)) := by
        unfold sliceAccess
        rw [if_neg hcondN, hl, if_neg Bool.false_ne_true]
      exact ⟨_, hres, newVariable_addr _ _ _ _⟩

/-- Witness for C2 (amended): an unloaded 5-element array of 4-byte
elements at base address 1000; element 2 is at address 1008. -/
def arrayAtB : Variable :=
  Variable.mk
    { defaultData with
        kind := Kind.array, len := 5, base := 1000, stride := 4 } [] []

theorem sliceAccess_unloaded_bounds_witness :
    (arrayAtB.kind = Kind.array ∨ arrayAtB.kind = Kind.slice ∨ arrayAtB.kind = Kind.string)
    ∧ arrayAtB.loaded = false
    ∧ hasFlag arrayAtB.flags VariableCPtr = false
    ∧ ¬((2 : Int) < 0 ∨ (2 : Int) ≥ arrayAtB.len)
    ∧ ∃ r, sliceAccess arrayAtB 2 = .ok r ∧ r.addr = 1008 := by
  refine ⟨Or.inl rfl, rfl, by decide, by decide, ?_⟩
  obtain ⟨r, hr, ha⟩ :=
    ((sliceAccess_unloaded_bounds arrayAtB 2 (Or.inl rfl) rfl).1 (by decide)).2 (by decide)
  refine ⟨r, hr, ?_⟩
  rw [ha]
  decide

/-- **C3.** For every Value of array, slice, or string kind and valid
bounds `0 ≤ lo ≤ hi ≤ v.Len`, reslicing to `[lo:hi]` and then
reslicing the result to `[0:hi-lo]` yields a Value with the same base
address, length and stride as the first reslice result. -/
theorem reslice_idempotent (v : Variable) (lo hi : Int)
    (hk : v.kind = Kind.array ∨ v.kind = Kind.slice ∨ v.kind = Kind.string)
    (h0 : 0 ≤ lo) (hlh : lo ≤ hi) (hh : hi ≤ v.len) :
    ∃ r1, reslice v lo hi = .ok r1 ∧
      ∃ r2, reslice r1 0 (hi - lo) = .ok r2 ∧
        r2.base = r1.base ∧ r2.len = r1.len ∧ r2.stride = r1.stride := by
  -- the `high` value used by the first reslice
  have hhigh1 : (if hasFlag v.flags VariableCPtr = true ∧ hi = 0 then lo else hi) = hi := by
    by_cases hq : hasFlag v.flags VariableCPtr = true ∧ hi = 0
    · rw [if_pos hq]; omega
    · rw [if_neg hq]
  have h1 : reslice v lo hi = .ok (resliceResult v lo hi) := by
    apply reslice_ok
    · by_cases hcnd : hasFlag v.flags VariableCPtr = false
      · rw [if_pos hcnd]; omega
      · rw [if_neg hcnd]; omega
    · rw [hhigh1]; omega
  set r1 := resliceResult v lo hi with hr1
  have hr1len : r1.len = hi - lo := by
    rw [hr1, resliceResult_len, hhigh1]
  have hr1flags : r1.flags = v.flags := resliceResult_flags v lo hi
  -- the `high` value used by the second reslice
  have hhigh2 : (if hasFlag r1.flags VariableCPtr = true ∧ hi - lo = 0 then (0 : Int) else hi - lo)
      = hi - lo := by
    by_cases hq : hasFlag r1.flags VariableCPtr = true ∧ hi - lo = 0
    · rw [if_pos hq]; omega
    · rw [if_neg hq]
  have h2 : reslice r1 0 (hi - lo) = .ok (resliceResult r1 0 (hi - lo)) := by
    apply reslice_ok
    · by_cases hcnd : hasFlag r1.flags VariableCPtr = false
      · rw [if_pos hcnd, hr1len]; omega
      · rw [if_neg hcnd]; omega
    · rw [hhigh2]; omega
  refine ⟨r1, h1, resliceResult r1 0 (hi - lo), h2, ?_, ?_, ?_⟩
  · rw [resliceResult_base, intToUint64_zero_mul, hr1, resliceResult_base, add64_add64_zero]
  · rw [resliceResult_len, hhigh2, hr1len]; omega
  · rw [resliceResult_stride]

/-- Witness for C3: a concrete slice Value of length 10 resliced to
`[2:7]` and then `[0:5]`. -/
def sliceLen10 : Variable :=
  Variable.mk
    { defaultData with
        kind := Kind.slice, len := 10, cap := 10,
        base := 2000, stride := 8 } [] []

theorem reslice_idempotent_witness :
    (sliceLen10.kind = Kind.array ∨ sliceLen10.kind = Kind.slice ∨ sliceLen10.kind = Kind.string)
    ∧ (0 : Int) ≤ 2 ∧ (2 : Int) ≤ 7 ∧ (7 : Int) ≤ sliceLen10.len
    ∧ ∃ r1, reslice sliceLen10 2 7 = .ok r1 ∧
        ∃ r2, reslice r1 0 (7 - 2) = .ok r2 ∧
          r2.base = r1.base ∧ r2.len = r1.len ∧ r2.stride = r1.stride :=
  ⟨Or.inr (Or.inl rfl), by norm_num, by norm_num, by decide,
    reslice_idempotent sliceLen10 2 7 (Or.inr (Or.inl rfl))
      (by norm_num) (by norm_num) (by decide)⟩

/-! ## `compareOp` (eval.go:2218-2335) and claims C4, C5. -/

/-- Go string ordering (byte-lexicographic; coincides with the
character-lexicographic order for the ASCII strings modelled here). -/
def goStringLess (a b : String) : Bool := decide (a < b)

/-- The real part of a numeric constant (`none` for non-numeric). -/
def goConstRe : GoConst → Option Rat
  | GoConst.int i => some (i : Rat)
  | GoConst.flt q => some q
  | GoConst.cplx re _ => some re
  | _ => none

/-- The imaginary part of a numeric constant (`none` for non-numeric). -/
def goConstIm : GoConst → Option Rat
  | GoConst.int _ => some 0
  | GoConst.flt _ => some 0
  | GoConst.cplx _ im => some im
  | _ => none

/-- Modelled from the spec: `go/constant.Compare` — comparison of two
arbitrary-precision constants.  Mixed numeric kinds compare via exact
rational arithmetic; bools and complex values support only `==`/`!=`;
any other pairing (or a nil operand) panics in Go, modelled as a
`runtime panic:` error. -/
def constantCompare (op : Token) (x y : Option GoConst) : Except String Bool :=
  match x, y with
  | some (GoConst.bool a), some (GoConst.bool b) =>
      match op with
      | .eql => .ok (a == b)
      | .neq => .ok (a != b)
      | _ => .error ("runtime panic: operator not defined on untyped bool")
  | some (GoConst.str a), some (GoConst.str b) =>
      match op with
      | .eql => .ok (a == b)
      | .neq => .ok (a != b)
      | .lss => .ok (goStringLess a b)
      | .gtr => .ok (goStringLess b a)
      | .leq => .ok (!goStringLess b a)
      | .geq => .ok (!goStringLess a b)
  | some xc, some yc =>
      match goConstRe xc, goConstIm xc, goConstRe yc, goConstIm yc with
      | some a, some ai, some b, some bi =>
          match op with
          | .eql => .ok (decide (a = b ∧ ai = bi))
          | .neq => .ok (!decide (a = b ∧ ai = bi))
          | _ =>
              if ai = 0 ∧ bi = 0 then
                match op with
                | .lss => .ok (decide (a < b))
                | .gtr => .ok (decide (b < a))
                | .leq => .ok (decide (a ≤ b))
                | .geq => .ok (decide (b ≤ a))
                | _ => .error ("runtime panic: unreachable")
              else .error ("runtime panic: operator not defined on complex")
      | _, _, _, _ => .error ("runtime panic: mismatched constant kinds")
  | _, _ => .error ("runtime panic: comparison with nil constant")

/-- `constant.StringVal` applied to a Value's constant (panics on a
non-string constant). -/
def goStringVal (c : Option GoConst) : Except String String :=
  match c with
  | some (GoConst.str s) => .ok s
  | _ => .error ("runtime panic: constant is not a string")

theorem sizeOf_children_lt (v : Variable) : sizeOf v.children < sizeOf v := by
  cases v with
  | mk d c m =>
      simp only [Variable.children, Variable.mk.sizeOf_spec]
      omega

mutual

/-- `compareOp` (eval.go:2220-2308).  `load` stands for the external
`loadValue` collaborator (variables.go): given a load configuration it
materializes a Value, returning the updated Value.  Structure mirrors
the source: the first switch handles numeric/bool kinds (delegated to
`constantCompare`) and strings (length shortcut for `==`/`!=`, then
loading and byte comparison); every other kind goes through the
`==`/`!=` guard, the `nilVariable` identity checks, and the second
kind switch, with `!=` negating the computed equality at the end. -/
def compareOp (load : LoadConfig → Variable → Variable) (op : Token) (xv yv : Variable) :
    Except String Bool :=
  match xv.kind with
  | .bool | .int | .int8 | .int16 | .int32 | .int64
  | .uint | .uint8 | .uint16 | .uint32 | .uint64 | .uintptr
  | .float32 | .float64 | .complex64 | .complex128 =>
      constantCompare op xv.value yv.value
  | .string =>
      -- unequal lengths decide == / != immediately; other operators
      -- (and equal lengths) fall through to the loading path
      let loadAndCompare : Except String Bool :=
        let xv2 := if xv.kind = Kind.string then load loadFullValueLongerStrings xv else xv
        let yv2 := if yv.kind = Kind.string then load loadFullValueLongerStrings yv else yv
        match goStringVal xv2.value, goStringVal yv2.value with
        | .ok sx, .ok sy =>
            if (sx.length : Int) ≠ xv2.len ∨ (sy.length : Int) ≠ yv2.len then
              .error ("string too long for comparison")
            else
              constantCompare op xv2.value yv2.value
        | .error e, _ => .error e
        | _, .error e => .error e
      if xv.len ≠ yv.len then
        match op with
        | .eql => .ok false
        | .neq => .ok true
        | _ => loadAndCompare
      else loadAndCompare
  | _ =>
      if op ≠ Token.eql ∧ op ≠ Token.neq then
        .error ("operator " ++ op.goString ++ " not defined on " ++ xv.kind.goString)
      else if xv.isNilSentinel ∧ op = Token.eql then
        .ok yv.isNil
      else if xv.isNilSentinel ∧ op = Token.neq then
        .ok (!yv.isNil)
      else if yv.isNilSentinel ∧ op = Token.eql then
        .ok xv.isNil
      else if yv.isNilSentinel ∧ op = Token.neq then
        .ok (!xv.isNil)
      else
        let eqlRes : Except String Bool :=
          match xv.kind with
          | .ptr =>
              match xv.children, yv.children with
              | cx :: _, cy :: _ => .ok (decide (cx.addr = cy.addr))
              | _, _ => .error ("runtime panic: index out of range")
          | .array =>
              if ¬((xv.children.length : Int) = xv.len ∧ (yv.children.length : Int) = yv.len) then
                .error ("array too long for comparison")
              else equalChildren load xv.children yv.children true
          | .struct =>
              if xv.children.length ≠ yv.children.length then
                .ok false
              else if ¬((xv.children.length : Int) = xv.len
                  ∧ (yv.children.length : Int) = yv.len) then
                .error ("structure too deep for comparison")
              else equalChildren load xv.children yv.children false
          | .slice => .error ("can not compare " ++ xv.kind.goString ++ " variables")
          | .map => .error ("can not compare " ++ xv.kind.goString ++ " variables")
          | .func => .error ("can not compare " ++ xv.kind.goString ++ " variables")
          | .chan => .error ("can not compare " ++ xv.kind.goString ++ " variables")
          | .interface =>
              match hcx : xv.children, yv.children with
              | cx :: _, cy :: _ =>
                  match cx.realType, cy.realType with
                  | some t1, some t2 =>
                      if t1.goString ≠ t2.goString then
                        .ok false
                      else
                        compareOp load Token.eql cx cy
                  | _, _ => .error ("runtime panic: nil type descriptor")
              | _, _ => .error ("runtime panic: index out of range")
          | _ =>
              .error ("unimplemented comparison of " ++ xv.kind.goString ++ " variables")
        match eqlRes with
        | .error e => .error e
        | .ok eql => .ok (if op = Token.neq then !eql else eql)
termination_by sizeOf xv
decreasing_by
  · exact sizeOf_children_lt xv
  · exact sizeOf_children_lt xv
  · have h := sizeOf_children_lt xv
    rw [hcx] at h
    simp only [List.cons.sizeOf_spec] at h
    omega

/-- `equalChildren` (eval.go:2322-2335): element-wise `==` over the
children, short-circuiting for arrays, accumulating for structs; a
`yv` children slice shorter than `xv`'s panics in Go. -/
def equalChildren (load : LoadConfig → Variable → Variable)
    (xs ys : List Variable) (shortcircuit : Bool) : Except String Bool :=
  match xs, ys with
  | [], _ => .ok true
  | x :: xs', y :: ys' =>
      match compareOp load Token.eql x y with
      | .error e => .error e
      | .ok eql =>
          if eql then
            equalChildren load xs' ys' shortcircuit
          else if shortcircuit then
            .ok false
          else
            match equalChildren load xs' ys' shortcircuit with
            | .error e => .error e
            | .ok _ => .ok false
  | _ :: _, [] => .error ("runtime panic: index out of range")
termination_by sizeOf xs
decreasing_by
  all_goals simp only [List.cons.sizeOf_spec]
  all_goals omega

end

/-- **C4.** For every pair of loaded string Values whose lengths
differ, `compareOp` decides `==` as false and `!=` as true directly
from the lengths.  The `load` collaborator is universally quantified
and unused by the conclusion, which formalizes "without loading either
string's byte contents": the result is the same for every possible
loader. -/
theorem compareOp_unequal_string_lengths
    (load : LoadConfig → Variable → Variable) (xv yv : Variable)
    (hx : xv.kind = Kind.string)
    (hlx : xv.loaded = true) (hly : yv.loaded = true)
    (hne : xv.len ≠ yv.len) :
    compareOp load Token.eql xv yv = .ok false
    ∧ compareOp load Token.neq xv yv = .ok true := by
  constructor
  · rw [compareOp]
    simp only [hx, if_pos hne]
  · rw [compareOp]
    simp only [hx, if_pos hne]

/-- A loader that leaves every Value untouched, used to instantiate
witnesses. -/
def idLoad : LoadConfig → Variable → Variable := fun _ v => v

def strValueA : Variable :=
  Variable.mk
    { defaultData with
        kind := Kind.string, loaded := true, len := 5,
        value := some (GoConst.str "hello") } [] []

def strValueB : Variable :=
  Variable.mk
    { defaultData with
        kind := Kind.string, loaded := true, len := 2,
        value := some (GoConst.str "hi") } [] []

/-- Witness for C4: the loaded strings "hello" (length 5) and "hi"
(length 2). -/
theorem compareOp_unequal_string_lengths_witness :
    (strValueA.kind = Kind.string ∧ strValueA.loaded = true ∧ strValueB.loaded = true
      ∧ strValueA.len ≠ strValueB.len)
    ∧ compareOp idLoad Token.eql strValueA strValueB = .ok false
    ∧ compareOp idLoad Token.neq strValueA strValueB = .ok true :=
  ⟨⟨rfl, rfl, rfl, by decide⟩,
    compareOp_unequal_string_lengths idLoad strValueA strValueB rfl rfl rfl (by decide)⟩

/-- **C5.** Values of slice, map, channel, or function kind are not
comparable: for `==`/`!=` with neither operand being the nil literal,
`compareOp` fails with the "can not compare" domain error.  When the
nil literal is one operand, `==`/`!=` are decided by whether the other
operand has backing storage (base address zero means nil), so `nil ==`
a non-nil slice is false. -/
theorem compareOp_nil_and_not_comparable (load : LoadConfig → Variable → Variable) :
    (∀ (op : Token) (xv yv : Variable),
      (op = Token.eql ∨ op = Token.neq) →
      (xv.kind = Kind.slice ∨ xv.kind = Kind.map ∨ xv.kind = Kind.chan ∨ xv.kind = Kind.func) →
      xv.isNilSentinel = false → yv.isNilSentinel = false →
      compareOp load op xv yv = .error ("can not compare " ++ xv.kind.goString ++ " variables"))
    ∧ (∀ yv : Variable,
      (yv.kind = Kind.slice ∨ yv.kind = Kind.map ∨ yv.kind = Kind.chan ∨ yv.kind = Kind.func) →
      compareOp load Token.eql nilVariable yv = .ok (decide (yv.base = 0))
      ∧ compareOp load Token.neq nilVariable yv = .ok (!decide (yv.base = 0))) := by
  constructor
  · intro op xv yv hop hxk hxs hys
    rcases hop with hop | hop <;> subst hop <;>
      rcases hxk with h | h | h | h <;>
      · rw [compareOp]
        simp [h, hxs, hys]
  · intro yv hyk
    have hk : nilVariable.kind = Kind.invalid := rfl
    have hs : nilVariable.isNilSentinel = true := rfl
    have hnil : yv.isNil = decide (yv.base = 0) := by
      rcases hyk with h | h | h | h <;> simp [Variable.isNil, h]
    constructor
    · rw [compareOp]
      simp [hk, hs, hnil]
    · rw [compareOp]
      simp [hk, hs, hnil]

/-- A non-nil slice Value (backing storage at base address 1234). -/
def nonNilSlice : Variable :=
  Variable.mk
    { defaultData with kind := Kind.slice, len := 3, base := 1234, stride := 8 } [] []

/-- A second non-nil slice Value. -/
def nonNilSlice2 : Variable :=
  Variable.mk
    { defaultData with kind := Kind.slice, len := 1, base := 5678, stride := 8 } [] []

/-- Witness for C5: comparing the two non-nil slices errors; comparing
the nil literal with a non-nil slice yields false for `==`. -/
theorem compareOp_nil_and_not_comparable_witness :
    (nonNilSlice.kind = Kind.slice ∧ nonNilSlice.isNilSentinel = false
      ∧ nonNilSlice2.isNilSentinel = false ∧ nonNilSlice.base ≠ 0)
    ∧ compareOp idLoad Token.eql nonNilSlice nonNilSlice2
        = .error ("can not compare slice variables")
    ∧ compareOp idLoad Token.eql nilVariable nonNilSlice = .ok false := by
  refine ⟨⟨rfl, rfl, rfl, by decide⟩, ?_, ?_⟩
  · have h := (compareOp_nil_and_not_comparable idLoad).1 Token.eql nonNilSlice nonNilSlice2
      (Or.inl rfl) (Or.inl rfl) rfl rfl
    rw [h]
    rfl
  · have h := ((compareOp_nil_and_not_comparable idLoad).2 nonNilSlice (Or.inl rfl)).1
    rw [h]
    exact congrArg Except.ok (by decide)

/-! ## `isType` (eval.go:2381-2438), `mapAccess` (eval.go:2502-2542)
and claim C6. -/

/-- The message of a `typeConvErr` (eval.go:2377-2379). -/
def typeConvErrMsg (src : GoType) (dst : Option GoType) : String :=
  "can not convert value of type " ++ src.goString ++ " to "
    ++ (match dst with
        | some t => t.goString
        | none => "<nil>")

/-- `isType` (eval.go:2381-2438): checks a Value against a target
type.  Typed Values must have the same resolved type; the nil literal
is accepted for nilable kinds; an untyped constant's literal kind must
be compatible with the target's kind.  Returns `none` on success, the
error message otherwise. -/
def isType (v : Variable) (typ : Option GoType) (kind : Kind) : Option String :=
  match v.dwarfType with
  | some dt =>
      (match typ with
       | none => some (typeConvErrMsg dt typ)
       | some t =>
          (match v.realType with
           | some rt => if sameType t rt = true then none else some (typeConvErrMsg dt typ)
           | none => some ("runtime panic: nil type descriptor")))
  | none =>
      (match typ with
       | none => none
       | some t =>
          if v.isNilSentinel then
            (match kind with
             | .slice | .map | .func | .ptr | .chan | .interface => none
             | _ => some ("mismatched types nil and " ++ t.goString))
          else
            let converr := "can not convert "
                ++ (match v.value with
                    | some c => c.goString
                    | none => "<nil>")
                ++ " constant to " ++ t.goString
            (match v.value with
             | none => some converr
             | some c =>
                (match t with
                 | .intType _ _ =>
                    (match c with
                     | .int _ => none
                     | _ => some converr)
                 | .uintType _ _ =>
                    (match c with
                     | .int _ => none
                     | _ => some converr)
                 | .floatType _ _ =>
                    (match c with
                     | .int _ => none
                     | .flt _ => none
                     | _ => some converr)
                 | .boolType _ =>
                    (match c with
                     | .bool _ => none
                     | _ => some converr)
                 | .stringType _ =>
                    (match c with
                     | .str _ => none
                     | _ => some converr)
                 | .complexType _ _ =>
                    (match c with
                     | .cplx _ _ => none
                     | .flt _ => none
                     | .int _ => none
                     | _ => some converr)
                 | _ => some converr)))

/-- Modelled from the spec: the external map iterator (`mapIterator`,
variables.go) — `nil` (here `none`) when the map is unreadable,
otherwise it yields the map's key/value entries in iteration order. -/
def mapIterator (v : Variable) : Option (List (Variable × Variable)) :=
  if v.unreadable.isSome then none else some v.mapEntries

/-- The load configuration `mapAccess` computes for keys: when the
index is a string constant loaded in full whose length exceeds the
default maximum, raise the maximum to the index's length
(eval.go:2508-2514).  (The `constant.StringVal` call is guarded by the
string-kind test; a string-kinded Value holding a non-string constant
would panic in Go and is modelled as an empty string.) -/
def mapLcfg (idx : Variable) : LoadConfig :=
  if idx.kind = Kind.string
      ∧ ((match idx.value with
          | some (GoConst.str s) => (s.length : Int)
          | _ => 0) = idx.len)
      ∧ idx.len > loadFullValue.maxStringLen then
    { loadFullValue with maxStringLen := idx.len }
  else loadFullValue

/-- The iteration loop of `mapAccess` (eval.go:2516-2536): load each
key, fail on unreadable keys, type-check the index against the first
key, compare, and return the matching entry's value. -/
def mapAccessLoop (load : LoadConfig → Variable → Variable) (lcfg : LoadConfig)
    (v idx : Variable) (first : Bool) :
    List (Variable × Variable) → Except String Variable
  | [] =>
      (match v.unreadable with
       | some u => .error u
       | none => .error ("key not found"))
  | (k, val) :: rest =>
      let key := load lcfg k
      (match key.unreadable with
       | some u => .error ("can not access unreadable map: " ++ u)
       | none =>
          (match (if first then isType idx key.realType key.kind else none) with
           | some e => .error e
           | none =>
              (match compareOp load Token.eql key idx with
               | .error e => .error e
               | .ok true => .ok val
               | .ok false => mapAccessLoop load lcfg v idx false rest)))

/-- `mapAccess` (eval.go:2502-2542). -/
def mapAccess (load : LoadConfig → Variable → Variable) (v idx : Variable) :
    Except String Variable :=
  match mapIterator v with
  | none =>
      .error ("can not access unreadable map: "
        ++ (match v.unreadable with
            | some u => u
            | none => ""))
  | some entries => mapAccessLoop load (mapLcfg idx) v idx true entries

theorem mapAccessLoop_exhausts (load : LoadConfig → Variable → Variable)
    (lcfg : LoadConfig) (v idx : Variable) (hv : v.unreadable = none)
    (entries : List (Variable × Variable)) (first : Bool)
    (hall : ∀ p ∈ entries,
      (load lcfg p.1).unreadable = none
      ∧ isType idx (load lcfg p.1).realType (load lcfg p.1).kind = none
      ∧ compareOp load Token.eql (load lcfg p.1) idx = .ok false) :
    mapAccessLoop load lcfg v idx first entries = .error ("key not found") := by
  induction entries generalizing first with
  | nil => simp [mapAccessLoop, hv]
  | cons p rest ih =>
      obtain ⟨hur, hty, hcmp⟩ := hall p (List.mem_cons_self p rest)
      have hrest : ∀ q ∈ rest,
          (load lcfg q.1).unreadable = none
          ∧ isType idx (load lcfg q.1).realType (load lcfg q.1).kind = none
          ∧ compareOp load Token.eql (load lcfg q.1) idx = .ok false :=
        fun q hq => hall q (List.mem_cons_of_mem p hq)
      cases p with
      | mk k val =>
          simp only [mapAccessLoop, hur, hty, hcmp, ite_self]
          exact ih false hrest

/-- **C6.** `mapAccess` type-checks the index against the key type on
the first iterated key and fails on mismatch regardless of the
remaining entries (no further iteration side effects), and when
iteration exhausts the map without an equal key it fails with "key not
found" instead of synthesizing a zero value. -/
theorem mapAccess_typecheck_first_and_key_not_found
    (load : LoadConfig → Variable → Variable) :
    (∀ (v idx k val : Variable) (rest : List (Variable × Variable)) (e : String),
      v.unreadable = none →
      v.mapEntries = (k, val) :: rest →
      (load (mapLcfg idx) k).unreadable = none →
      isType idx (load (mapLcfg idx) k).realType (load (mapLcfg idx) k).kind = some e →
      mapAccess load v idx = .error e)
    ∧ (∀ (v idx : Variable),
      v.unreadable = none →
      (∀ p ∈ v.mapEntries,
        (load (mapLcfg idx) p.1).unreadable = none
        ∧ isType idx (load (mapLcfg idx) p.1).realType (load (mapLcfg idx) p.1).kind = none
        ∧ compareOp load Token.eql (load (mapLcfg idx) p.1) idx = .ok false) →
      mapAccess load v idx = .error ("key not found")) := by
  constructor
  · intro v idx k val rest e hv hent hur hty
    unfold mapAccess
    rw [mapIterator, hv]
    simp only [Option.isSome_none, Bool.false_eq_true, if_false, hent]
    simp only [mapAccessLoop, hur, if_true, hty]
  · intro v idx hv hall
    unfold mapAccess
    rw [mapIterator, hv]
    simp only [Option.isSome_none, Bool.false_eq_true, if_false]
    exact mapAccessLoop_exhausts load (mapLcfg idx) v idx hv v.mapEntries true hall

/-- An int-typed map key Value holding the value 1. -/
def intKey1 : Variable :=
  Variable.mk
    { defaultData with
        kind := Kind.int, dwarfType := some (GoType.intType "int" 8),
        realType := some (GoType.intType "int" 8), loaded := true,
        value := some (GoConst.int 1) } [] []

/-- A map Value with a single entry whose key is `intKey1`. -/
def intKeyMap : Variable :=
  Variable.mk
    { defaultData with kind := Kind.map, base := 4096, len := 1 } []
    [(intKey1, Variable.mk { defaultData with kind := Kind.int } [] [])]

/-- An untyped string constant used as a mismatching index. -/
def strIndex : Variable :=
  Variable.mk
    { defaultData with
        kind := Kind.string, len := 1, value := some (GoConst.str "x") } [] []

/-- An untyped integer constant 3 used as a non-matching index. -/
def intIndex3 : Variable :=
  Variable.mk
    { defaultData with kind := Kind.int, value := some (GoConst.int 3) } [] []

/-- Witness for C6: indexing `intKeyMap` with the string constant "x"
fails with the type-conversion error from the first key; indexing it
with the integer constant 3 exhausts the map and fails with "key not
found". -/
theorem mapAccess_typecheck_first_and_key_not_found_witness :
    intKeyMap.unreadable = none
    ∧ mapAccess idLoad intKeyMap strIndex
        = .error ("can not convert \"x\" constant to int")
    ∧ mapAccess idLoad intKeyMap intIndex3 = .error ("key not found") := by
  refine ⟨rfl, ?_, ?_⟩
  · exact (mapAccess_typecheck_first_and_key_not_found idLoad).1 intKeyMap strIndex
      intKey1 (Variable.mk { defaultData with kind := Kind.int } [] []) [] _
      rfl rfl rfl (by rfl)
  · apply (mapAccess_typecheck_first_and_key_not_found idLoad).2 intKeyMap intIndex3 rfl
    intro p hp
    have hp1 : p = (intKey1, Variable.mk { defaultData with kind := Kind.int } [] []) := by
      simpa [intKeyMap, Variable.mapEntries] using hp
    subst hp1
    refine ⟨rfl, by rfl, ?_⟩
    rw [compareOp]
    rfl

/-! ## The operand stack (`evalStack`, eval.go:741-786), `asInt`
(eval.go:2337-2353), `evalReslice` (eval.go:1878-1932) and `result`
(eval.go:911-927); claims C7, C9, C10. -/

/-- The interpreter state fragment used by the embedded opcodes: the
operand stack (`stack.stack`; the head of the list is the top of the
stack, i.e. the end of the Go slice), the call-injection stack (whose
contents the embedded fragments never inspect), and the recorded
error.  Stack entries are `Option Variable` because Go pushes
`*Variable` pointers that may be nil (`pushErr` on failure). -/
structure EvalStack where
  stack : List (Option Variable)
  fncalls : List Unit
  err : Option String

/-- `push` (eval.go:755-757). -/
def EvalStack.push (s : EvalStack) (v : Option Variable) : EvalStack :=
  { s with stack := v :: s.stack }

/-- `pushErr` (eval.go:783-786): records the error of a fallible
producer and pushes its (possibly nil) Value. -/
def EvalStack.pushErrE (s : EvalStack) (r : Except String Variable) : EvalStack :=
  match r with
  | .ok v => { s with stack := some v :: s.stack, err := none }
  | .error e => { s with stack := none :: s.stack, err := some e }

/-- The error state produced when an opcode's execution panics and the
per-opcode `recover` (eval.go:932-937) converts the panic into an
internal debugger error. -/
def recoveredPanicMsg : String := "internal debugger error: runtime error (recovered)"

/-- `asInt` (eval.go:2337-2353): an untyped constant must be an
integer constant; a typed Value is loaded, must be readable and of
`godwarf.IntType`; the result is the constant truncated to int64.
Returns the (possibly loaded) Value alongside, mirroring the in-place
load. -/
def asInt (load : LoadConfig → Variable → Variable) (v : Variable) :
    Except String (Int × Variable) :=
  match v.dwarfType with
  | none =>
      (match v.value with
       | some (GoConst.int i) => .ok (intToInt64 i, v)
       | some c => .error ("can not convert constant " ++ c.goString ++ " to int")
       | none => .error ("runtime panic: nil constant"))
  | some dt =>
      let v2 := load loadSingleValue v
      (match v2.unreadable with
       | some u => .error u
       | none =>
          (match dt with
           | .intType _ _ =>
              .ok ((match v2.value with
                    | some (GoConst.int i) => intToInt64 i
                    | _ => 0), v2)
           | _ => .error ("can not convert value of type " ++ dt.goString ++ " to int")))

/-- `Variable.TypeString` as used in error messages (modelled from the
spec: the declared type's printed name, or the kind for typeless
Values). -/
def Variable.typeString (v : Variable) : String :=
  match v.dwarfType with
  | some t => t.goString
  | none => v.kind.goString

/-- The `evalop.Reslice` opcode data used by `evalReslice`:
`hasHigh` is `op.HasHigh` and `nodeHighPresent` is
`op.Node.High != nil`; the compiler sets `HasHigh` exactly when the
surface expression has a high bound, so the two coincide on compiled
programs (modelled from the spec).  `xText` is
`exprToString(op.Node.X)`. -/
structure ResliceOp where
  hasHigh : Bool
  nodeHighPresent : Bool
  xText : String

/-- The tail of `evalReslice` (eval.go:1892-1931), after the bounds
have been popped: pop the subject, propagate unreadability, default
the high bound to the subject's length, then dispatch on kind.  For
maps: a present high bound is an error; otherwise `mapSkip` is
incremented by `low`, the map iterator refreshes `Len`, and skipping
past the end is "map index out of bounds". -/
def evalResliceRest (op : ResliceOp) (low : Int) (highOpt : Option Int)
    (s : EvalStack) : EvalStack :=
  match s.stack with
  | [] => { s with err := some recoveredPanicMsg }
  | xevOpt :: rest =>
    let s2 : EvalStack := { s with stack := rest }
    (match xevOpt with
     | none => { s2 with err := some recoveredPanicMsg }
     | some xev =>
        (match xev.unreadable with
         | some u => { s2 with err := some u }
         | none =>
            let high : Int :=
              match highOpt with
              | some h => h
              | none => xev.len
            (match xev.kind with
             | .slice =>
                if xev.base = 0 then
                  { s2 with err := some ("can not slice \"" ++ op.xText ++ "\"") }
                else s2.pushErrE (reslice xev low high)
             | .array =>
                if xev.base = 0 then
                  { s2 with err := some ("can not slice \"" ++ op.xText ++ "\"") }
                else s2.pushErrE (reslice xev low high)
             | .string =>
                if xev.base = 0 then
                  { s2 with err := some ("can not slice \"" ++ op.xText ++ "\"") }
                else s2.pushErrE (reslice xev low high)
             | .map =>
                if op.nodeHighPresent then
                  { s2 with err := some ("second slice argument must be empty for maps") }
                else
                  let xev2 := xev.updData (fun d => { d with mapSkip := d.mapSkip + low })
                  let xev3 :=
                    match mapIterator xev2 with
                    | some entries =>
                        xev2.updData (fun d => { d with len := (entries.length : Int) })
                    | none => xev2
                  if xev3.mapSkip ≥ xev3.len then
                    { s2 with err := some ("map index out of bounds") }
                  else
                    { s2 with stack := some xev3 :: s2.stack }
             | .ptr =>
                if hasFlag xev.flags VariableCPtr then
                  s2.pushErrE (reslice xev low high)
                else
                  { s2 with err := some ("can not slice \"" ++ op.xText ++ "\" (type "
                      ++ xev.typeString ++ ")") }
             | _ =>
                { s2 with err := some ("can not slice \"" ++ op.xText ++ "\" (type "
                    ++ xev.typeString ++ ")") })))

/-- `evalReslice` (eval.go:1878-1932): pop the low bound (and the high
bound when present) as integers, then run the kind dispatch. -/
def evalReslice (load : LoadConfig → Variable → Variable) (op : ResliceOp)
    (s : EvalStack) : EvalStack :=
  match s.stack with
  | [] => { s with err := some recoveredPanicMsg }
  | lowOpt :: rest1 =>
    (match lowOpt with
     | none => { s with stack := rest1, err := some recoveredPanicMsg }
     | some lowVar =>
        (match asInt load lowVar with
         | .error e => { s with stack := rest1, err := some e }
         | .ok (low, _) =>
            if op.hasHigh then
              (match rest1 with
               | [] => { s with stack := [], err := some recoveredPanicMsg }
               | highOpt2 :: rest2 =>
                  (match highOpt2 with
                   | none => { s with stack := rest2, err := some recoveredPanicMsg }
                   | some highVar =>
                      (match asInt load highVar with
                       | .error e => { s with stack := rest2, err := some e }
                       | .ok (high, _) =>
                          evalResliceRest op low (some high) { s with stack := rest2 })))
            else
              evalResliceRest op low none { s with stack := rest1 }))

/-- `result` (eval.go:911-927): read the final Value off the operand
stack — none for an empty stack, the top for a singleton, and a
"wrong stack size" internal error otherwise (only when no earlier
error was recorded); the Value is loaded only when a configuration is
given and no error is pending. -/
def stackResult (load : LoadConfig → Variable → Variable) (cfg : Option LoadConfig)
    (s : EvalStack) : Option Variable × Option String :=
  let r : Option Variable :=
    match s.stack with
    | [v] => v
    | _ => none
  let err : Option String :=
    match s.stack with
    | [] => s.err
    | [_] => s.err
    | _ =>
        (match s.err with
         | none => some ("internal debugger error: wrong stack size at end "
             ++ toString s.stack.length)
         | some e => some e)
  match r, cfg, err with
  | some v, some c, none => (some (load c v), none)
  | _, _, _ => (r, err)

/-- An untyped integer constant Value. -/
def intConst (i : Int) : Variable :=
  Variable.mk { defaultData with kind := Kind.int, value := some (GoConst.int i) } [] []

/-- **C7 counterexample.** The claim says a map reslice `[0:0]` means
the whole map.  A surface expression `m[0:0]` compiles to a Reslice op
with a (literal `0`) high bound present, and `evalReslice`
(eval.go:1910-1913) rejects *any* present high bound on a map with
"second slice argument must be empty for maps" — it never returns the
map: here the whole-map expectation fails on a readable one-entry map
at `[0:0]` (low 0, high 0). -/
theorem evalReslice_map_zero_zero_errors :
    intKeyMap.kind = Kind.map
    ∧ intKeyMap.unreadable = none
    ∧ intKeyMap.mapEntries.length = 1
    ∧ (evalReslice idLoad { hasHigh := true, nodeHighPresent := true, xText := "m" }
        { stack := [some (intConst 0), some (intConst 0), some intKeyMap],
          fncalls := [], err := none }).err
        = some ("second slice argument must be empty for maps")
    ∧ (evalReslice idLoad { hasHigh := true, nodeHighPresent := true, xText := "m" }
        { stack := [some (intConst 0), some (intConst 0), some intKeyMap],
          fncalls := [], err := none }).stack = [] :=
  ⟨rfl, rfl, rfl, rfl, rfl⟩

/-- **C7 (amended).** For every readable map Value: a reslice with a
present high bound fails with "second slice argument must be empty for
maps"; a reslice with only a low bound skips the first `low` iteration
entries (accumulating into `mapSkip`), failing with "map index out of
bounds" exactly when the accumulated skip reaches or exceeds the map's
length, and otherwise pushing the same map Value with the updated skip
(so `[0:]` on a fresh map yields the whole map). -/
theorem evalReslice_map_semantics (load : LoadConfig → Variable → Variable)
    (xev lowVar lv2 : Variable) (low : Int)
    (rest : List (Option Variable)) (fns : List Unit) (t : String)
    (hk : xev.kind = Kind.map) (hu : xev.unreadable = none)
    (hlow : asInt load lowVar = .ok (low, lv2)) :
    (∀ (highVar hv2 : Variable) (high : Int),
      asInt load highVar = .ok (high, hv2) →
      (evalReslice load { hasHigh := true, nodeHighPresent := true, xText := t }
          { stack := some lowVar :: some highVar :: some xev :: rest,
            fncalls := fns, err := none }).err
        = some ("second slice argument must be empty for maps"))
    ∧ (xev.mapSkip + low ≥ (xev.mapEntries.length : Int) →
      (evalReslice load { hasHigh := false, nodeHighPresent := false, xText := t }
          { stack := some lowVar :: some xev :: rest,
            fncalls := fns, err := none }).err
        = some ("map index out of bounds"))
    ∧ (xev.mapSkip + low < (xev.mapEntries.length : Int) →
      evalReslice load { hasHigh := false, nodeHighPresent := false, xText := t }
          { stack := some lowVar :: some xev :: rest,
            fncalls := fns, err := none }
        = { stack := some (xev.updData (fun d =>
              { d with mapSkip := d.mapSkip + low,
                       len := (xev.mapEntries.length : Int) })) :: rest,
            fncalls := fns, err := none }) := by
  have hskip : ∀ lo : Int,
      (xev.updData (fun d => { d with mapSkip := d.mapSkip + lo })).mapSkip
        = xev.mapSkip + lo := fun lo => rfl
  have hument : (xev.updData (fun d =>
      { d with mapSkip := d.mapSkip + low })).unreadable = none := hu
  refine ⟨?_, ?_, ?_⟩
  · intro highVar hv2 high hhigh
    simp only [evalReslice, hlow, hhigh, if_true]
    simp only [evalResliceRest, hu, hk]
    rfl
  · intro hge
    simp only [evalReslice, hlow, Bool.false_eq_true, if_false]
    simp only [evalResliceRest, hu, hk]
    rw [mapIterator, hument]
    simp only [Option.isSome_none, Bool.false_eq_true, if_false]
    rw [if_pos]
    exact hge
  · intro hlt
    simp only [evalReslice, hlow, Bool.false_eq_true, if_false]
    simp only [evalResliceRest, hu, hk]
    rw [mapIterator, hument]
    simp only [Option.isSome_none, Bool.false_eq_true, if_false]
    rw [if_neg]
    · rfl
    · exact not_le.mpr hlt

/-- Witness for C7 (amended): on the one-entry map, `[2:]` skips past
the end ("map index out of bounds"), `[0:]` yields the whole map, and
`[0:5]` (high bound present) errors. -/
theorem evalReslice_map_semantics_witness :
    intKeyMap.kind = Kind.map ∧ intKeyMap.unreadable = none
    ∧ (evalReslice idLoad { hasHigh := true, nodeHighPresent := true, xText := "m" }
        { stack := [some (intConst 0), some (intConst 5), some intKeyMap],
          fncalls := [], err := none }).err
        = some ("second slice argument must be empty for maps")
    ∧ (evalReslice idLoad { hasHigh := false, nodeHighPresent := false, xText := "m" }
        { stack := [some (intConst 2), some intKeyMap],
          fncalls := [], err := none }).err
        = some ("map index out of bounds")
    ∧ evalReslice idLoad { hasHigh := false, nodeHighPresent := false, xText := "m" }
        { stack := [some (intConst 0), some intKeyMap],
          fncalls := [], err := none }
        = { stack := [some (intKeyMap.updData (fun d =>
              { d with mapSkip := d.mapSkip + 0,
                       len := (intKeyMap.mapEntries.length : Int) }))],
            fncalls := [], err := none } := by
  refine ⟨rfl, rfl, ?_, ?_, ?_⟩
  · exact (evalReslice_map_semantics idLoad intKeyMap (intConst 0) (intConst 0) 0 []
      [] "m" rfl rfl rfl).1 (intConst 5) (intConst 5) 5 rfl
  · exact (evalReslice_map_semantics idLoad intKeyMap (intConst 2) (intConst 2) 2 []
      [] "m" rfl rfl rfl).2.1 (by decide)
  · exact (evalReslice_map_semantics idLoad intKeyMap (intConst 0) (intConst 0) 0 []
      [] "m" rfl rfl rfl).2.2 (by decide)

/-- **C9.** When the opcode program has run to completion with no
recorded error and no pending call injections, the result read off the
operand stack is: no Value for an empty stack, the single Value for a
singleton stack (loaded under the given configuration), and the fatal
"wrong stack size" internal-consistency error for two or more
entries.  (The absence of pending call injections is enforced by the
run loop, eval.go:873-876, before `result` is consulted; `result`
itself does not read `fncalls`.) -/
theorem stackResult_termination (load : LoadConfig → Variable → Variable)
    (cfg : Option LoadConfig) (s : EvalStack)
    (herr : s.err = none) (hfn : s.fncalls = []) :
    (s.stack = [] → stackResult load cfg s = (none, none))
    ∧ (∀ v : Variable, s.stack = [some v] →
        stackResult load cfg s =
          (some (match cfg with
                 | some c => load c v
                 | none => v), none))
    ∧ (2 ≤ s.stack.length →
        stackResult load cfg s =
          (none, some ("internal debugger error: wrong stack size at end "
            ++ toString s.stack.length))) := by
  refine ⟨?_, ?_, ?_⟩
  · intro h
    simp only [stackResult, h, herr]
  · intro v h
    cases cfg with
    | none => simp only [stackResult, h, herr]
    | some c => simp only [stackResult, h, herr]
  · intro h
    match hs : s.stack with
    | [] => rw [hs] at h; simp at h
    | [a] => rw [hs] at h; simp at h
    | a :: b :: t =>
        simp only [stackResult, hs, herr]

/-- Witness for C9: a stack holding exactly the Values 1 and 2 on
termination yields the wrong-stack-size error; a singleton stack
yields its Value. -/
theorem stackResult_termination_witness :
    stackResult idLoad none
        { stack := [some (intConst 1), some (intConst 2)], fncalls := [], err := none }
      = (none, some ("internal debugger error: wrong stack size at end 2"))
    ∧ stackResult idLoad none
        { stack := [some (intConst 7)], fncalls := [], err := none }
      = (some (intConst 7), none) := by
  constructor
  · have h := (stackResult_termination idLoad none
      { stack := [some (intConst 1), some (intConst 2)], fncalls := [], err := none }
      rfl rfl).2.2 (by decide)
    rw [h]
    rfl
  · exact (stackResult_termination idLoad none
      { stack := [some (intConst 7)], fncalls := [], err := none }
      rfl rfl).2.1 (intConst 7) rfl

/-- **C10.** If an error was recorded during execution, `result`
returns it unchanged: an over-full final stack does not replace it
with the wrong-stack-size error, the top-of-stack Value (if any) is
returned exactly as it is (never loaded), and the outcome is
independent of the loader entirely. -/
theorem stackResult_error_unchanged (load load2 : LoadConfig → Variable → Variable)
    (cfg : Option LoadConfig) (s : EvalStack) (e : String)
    (herr : s.err = some e) :
    stackResult load cfg s =
      ((match s.stack with
        | [v] => v
        | _ => none), some e)
    ∧ stackResult load cfg s = stackResult load2 cfg s := by
  have hmain : ∀ ld : LoadConfig → Variable → Variable,
      stackResult ld cfg s =
        ((match s.stack with
          | [v] => v
          | _ => none), some e) := by
    intro ld
    match hs : s.stack with
    | [] => simp only [stackResult, hs, herr]
    | [a] =>
        cases a with
        | none => simp only [stackResult, hs, herr]
        | some v => simp only [stackResult, hs, herr]
    | a :: b :: t => simp only [stackResult, hs, herr]
  exact ⟨hmain load, (hmain load).trans (hmain load2).symm⟩

/-- Witness for C10: a recorded error survives both an over-full stack
(no wrong-stack-size replacement) and differing loaders. -/
theorem stackResult_error_unchanged_witness :
    stackResult idLoad (some loadFullValue)
        { stack := [some (intConst 1), some (intConst 2)], fncalls := [],
          err := some ("key not found") }
      = (none, some ("key not found"))
    ∧ stackResult idLoad (some loadFullValue)
        { stack := [some (intConst 1)], fncalls := [],
          err := some ("key not found") }
      = (some (intConst 1), some ("key not found")) := by
  constructor
  · have h := (stackResult_error_unchanged idLoad idLoad (some loadFullValue)
      { stack := [some (intConst 1), some (intConst 2)], fncalls := [],
        err := some ("key not found") } ("key not found") rfl).1
    rw [h]
  · have h := (stackResult_error_unchanged idLoad idLoad (some loadFullValue)
      { stack := [some (intConst 1)], fncalls := [],
        err := some ("key not found") } ("key not found") rfl).1
    rw [h]

/-! ## `Locals` post-processing (eval.go:447-480), `PushLocal` lookup
(eval.go:965-992) and claim C8. -/

/-- Modelled from the spec: the `variablesByDepthAndDeclLine`
comparator (variables.go) — order by lexical depth ascending, then by
declaration line. -/
def ddLess (a b : Variable × Int) : Bool :=
  if a.2 = b.2 then decide (a.1.declLine < b.1.declLine) else decide (a.2 < b.2)

/-- The non-strict companion of `ddLess`, used to run the stable
insertion sort that models `sort.Stable` (a stable sort is determined
up to extensional equality by its comparator, so any stable sorting
algorithm is a faithful model). -/
def ddLE (a b : Variable × Int) : Prop := ¬ ddLess b a = true

instance : DecidableRel ddLE := fun a b => instDecidableNot

theorem ddLess_iff (a b : Variable × Int) :
    ddLess a b = true ↔
      (a.2 = b.2 ∧ a.1.declLine < b.1.declLine) ∨ (a.2 ≠ b.2 ∧ a.2 < b.2) := by
  unfold ddLess
  by_cases h : a.2 = b.2 <;> simp [h]

instance : IsTotal (Variable × Int) ddLE := by
  constructor
  intro a b
  unfold ddLE
  rw [ddLess_iff, ddLess_iff]
  omega

instance : IsTrans (Variable × Int) ddLE := by
  constructor
  intro a b c hab hbc
  unfold ddLE at hab hbc ⊢
  rw [ddLess_iff] at hab hbc ⊢
  omega

/-- Modelled from the spec: `maybeDereference` — a pointer Value
yields its pointee (the already-present child, or a fresh zero-address
Value when none is loaded), any other Value is returned unchanged. -/
def maybeDereference (v : Variable) : Variable :=
  match v.kind with
  | .ptr =>
      (match v.children with
       | c :: _ => c
       | [] => newVariable v.name 0 v.fieldType v.mem)
  | _ => v

/-- The escaped-local handling of `Locals` (eval.go:456-472): a name
beginning with the `&` escape marker is dereferenced once, the marker
is stripped, the Value is tagged escaped, the declaration line is
preserved, and a zero dereferenced address becomes "no address for
escaped variable".  (The `LocationExpr` bookkeeping is display-only
and not modelled.) -/
def escapeTransform (v : Variable) : Variable :=
  if 1 < v.name.length ∧ v.name.toList.head? = some (Char.ofNat 38) then
    let declLine := v.declLine
    let v2 := maybeDereference v
    let v3 :=
      if v2.addr = 0 ∧ v2.unreadable = none then
        v2.updData (fun d => { d with unreadable := some ("no address for escaped variable") })
      else v2
    v3.updData (fun d =>
      { d with name := v.name.drop 1, flags := orFlag d.flags VariableEscaped,
               declLine := declLine })
  else v

/-- The `lvn` map of `Locals` (eval.go:453): an association list from
name to the index of the last Variable seen with that name (most
recent binding first). -/
def alookup : List (String × Nat) → String → Option Nat
  | [], _ => none
  | (n, i) :: rest, m => if n = m then some i else alookup rest m

/-- The single left-to-right shadow-marking pass of `Locals`
(eval.go:455-477) expressed as the set of indices it marks: processing
position `i` marks the index `lvn` records for the current name, then
records the current position for that name. -/
def shadowMarks (lvn : List (String × Nat)) (i : Nat) : List Variable → List Nat
  | [] => []
  | v :: rest =>
      let tail := shadowMarks ((v.name, i) :: lvn) (i + 1) rest
      (match alookup lvn v.name with
       | some j => j :: tail
       | none => tail)

/-- Apply the shadow marks: position `k` gets the `VariableShadowed`
flag exactly when the marking pass recorded it. -/
def markShadowed (vars : List Variable) : List Variable :=
  (vars.enum).map (fun p =>
    if p.1 ∈ shadowMarks [] 0 vars then
      p.2.updData (fun d => { d with flags := orFlag d.flags VariableShadowed })
    else p.2)

/-- The post-processing tail of `Locals` (eval.go:447-480): stable
sort by (depth, declaration line), then the single pass doing the
escape transform and shadow marking.  (The source interleaves the
transform and the marking in one loop; the transform is per-element
and the marking only ORs a flag, so the composition is the same.) -/
def localsPostProcess (input : List (Variable × Int)) : List Variable :=
  markShadowed ((List.insertionSort ddLE input).map (fun p => escapeTransform p.1))

/-- The `PushLocal` lookup (eval.go:982-989): the first variable with
the requested name whose shadowed flag is clear. -/
def pushLocalLookup (vars : List Variable) (name : String) : Option Variable :=
  vars.find? (fun v => decide (v.name = name ∧ hasFlag v.flags VariableShadowed = false))

/-- The `PushLocal` opcode case (eval.go:965-992), after the locals
list has been produced: push the visible binding or record the
"could not find symbol value" error. -/
def executeOpPushLocal (vars : List Variable) (name : String) (s : EvalStack) : EvalStack :=
  match pushLocalLookup vars name with
  | some v => s.push (some v)
  | none => { s with err := some ("could not find symbol value for " ++ name) }

/-- The name at position `j` (with a harmless default). -/
def nameAt (vs : List Variable) (j : Nat) : String := (vs.getD j nilVariable).name

/-- The absolute index (offset by `base`) of the last element of `l`
named `n`. -/
def lastIdx (base : Nat) (n : String) : List Variable → Option Nat
  | [] => none
  | v :: rest =>
      (match lastIdx (base + 1) n rest with
       | some j => some j
       | none => if v.name = n then some base else none)

/-- The index the marking pass would record as "previous occurrence"
for position `m`: the last earlier position with the same name, or
what the initial `lvn` records for that name. -/
def prevOf (lvn : List (String × Nat)) (i : Nat) (vs : List Variable) (m : Nat) : Option Nat :=
  match lastIdx i (nameAt vs m) (vs.take m) with
  | some j => some j
  | none => alookup lvn (nameAt vs m)

/-! Stability of the modelled `sort.Stable`: the sorted list preserves
the relative order of entries with equal (depth, declaration-line)
keys, stated as preservation of every same-key filter. -/

theorem filter_orderedInsert_neg (p : Variable × Int → Bool) (x : Variable × Int)
    (hx : p x = false) :
    ∀ l : List (Variable × Int),
      (List.orderedInsert ddLE x l).filter p = l.filter p := by
  intro l
  induction l with
  | nil => simp [List.orderedInsert, List.filter, hx]
  | cons y ys ih =>
      rw [List.orderedInsert]
      by_cases h : ddLE x y
      · rw [if_pos h]
        simp [List.filter_cons, hx]
      · rw [if_neg h]
        simp only [List.filter_cons, ih]

theorem filter_orderedInsert_pos (p : Variable × Int → Bool) (x : Variable × Int)
    (hx : p x = true)
    (hq : ∀ y, ddLess y x = true → p y = false) :
    ∀ l : List (Variable × Int),
      (List.orderedInsert ddLE x l).filter p = x :: l.filter p := by
  intro l
  induction l with
  | nil => simp [List.orderedInsert, List.filter, hx]
  | cons y ys ih =>
      rw [List.orderedInsert]
      by_cases h : ddLE x y
      · rw [if_pos h]
        simp [List.filter_cons, hx]
      · rw [if_neg h]
        have hyx : ddLess y x = true := by
          unfold ddLE at h
          exact of_not_not h
        have hpy : p y = false := hq y hyx
        simp only [List.filter_cons, hpy, Bool.false_eq_true, if_false, ih]

theorem filter_insertionSort (p : Variable × Int → Bool)
    (hkey : ∀ a b, p a = true → ddLess b a = true → p b = false) :
    ∀ l : List (Variable × Int),
      (List.insertionSort ddLE l).filter p = l.filter p := by
  intro l
  induction l with
  | nil => rfl
  | cons a l ih =>
      rw [List.insertionSort]
      by_cases hpa : p a = true
      · rw [filter_orderedInsert_pos p a hpa (fun y hy => hkey a y hpa hy), ih]
        simp [List.filter_cons, hpa]
      · have hpa2 : p a = false := by
          cases h : p a
          · rfl
          · exact absurd h hpa
        rw [filter_orderedInsert_neg p a hpa2, ih]
        simp [List.filter_cons, hpa2]

/-! The shadow-marking pass marks exactly the positions that have a
later same-name position. -/

theorem prevOf_zero (lvn : List (String × Nat)) (i : Nat) (v : Variable)
    (rest : List Variable) :
    prevOf lvn i (v :: rest) 0 = alookup lvn v.name := rfl

theorem prevOf_succ (lvn : List (String × Nat)) (i : Nat) (v : Variable)
    (rest : List Variable) (m : Nat) :
    prevOf lvn i (v :: rest) (m + 1) = prevOf ((v.name, i) :: lvn) (i + 1) rest m := by
  unfold prevOf
  have hname : nameAt (v :: rest) (m + 1) = nameAt rest m := rfl
  rw [hname]
  have htake : (v :: rest).take (m + 1) = v :: rest.take m := rfl
  rw [htake]
  rw [lastIdx]
  cases hL : lastIdx (i + 1) (nameAt rest m) (rest.take m) with
  | some j => rfl
  | none =>
      by_cases hv : v.name = nameAt rest m
      · rw [if_pos hv]
        rw [alookup]
        rw [if_pos hv]
      · rw [if_neg hv]
        rw [alookup]
        rw [if_neg hv]

theorem shadowMarks_cons (lvn : List (String × Nat)) (i : Nat) (v : Variable)
    (rest : List Variable) :
    shadowMarks lvn i (v :: rest) =
      (match alookup lvn v.name with
       | some j => j :: shadowMarks ((v.name, i) :: lvn) (i + 1) rest
       | none => shadowMarks ((v.name, i) :: lvn) (i + 1) rest) := rfl

theorem mem_shadowMarks_iff (vs : List Variable) :
    ∀ (lvn : List (String × Nat)) (i k : Nat),
      k ∈ shadowMarks lvn i vs ↔ ∃ m, m < vs.length ∧ prevOf lvn i vs m = some k := by
  induction vs with
  | nil =>
      intro lvn i k
      simp [shadowMarks]
  | cons v rest ih =>
      intro lvn i k
      have hsplit : (∃ m, m < (v :: rest).length ∧ prevOf lvn i (v :: rest) m = some k) ↔
          (prevOf lvn i (v :: rest) 0 = some k
            ∨ ∃ m, m < rest.length ∧ prevOf lvn i (v :: rest) (m + 1) = some k) := by
        constructor
        · rintro ⟨m, hm, hp⟩
          cases m with
          | zero => exact Or.inl hp
          | succ m2 =>
              refine Or.inr ⟨m2, ?_, hp⟩
              simp only [List.length_cons] at hm
              omega
        · rintro (h | ⟨m, hm, hp⟩)
          · exact ⟨0, by simp, h⟩
          · exact ⟨m + 1, by simp only [List.length_cons]; omega, hp⟩
      rw [hsplit, prevOf_zero]
      have hrw : ∀ m, prevOf lvn i (v :: rest) (m + 1) = some k
          ↔ prevOf ((v.name, i) :: lvn) (i + 1) rest m = some k := by
        intro m
        rw [prevOf_succ]
      simp only [hrw]
      rw [← ih ((v.name, i) :: lvn) (i + 1) k]
      rw [shadowMarks_cons]
      cases halk : alookup lvn v.name with
      | some j =>
          dsimp only
          rw [List.mem_cons]
          constructor
          · rintro (h | h)
            · left
              rw [h]
            · exact Or.inr h
          · rintro (h | h)
            · exact Or.inl (Option.some.inj h).symm
            · exact Or.inr h
      | none =>
          dsimp only
          constructor
          · intro h
            exact Or.inr h
          · rintro (h | h)
            · exact absurd h (by simp)
            · exact h

theorem lastIdx_some (n : String) :
    ∀ (l : List Variable) (base k : Nat),
      lastIdx base n l = some k →
        base ≤ k ∧ k - base < l.length ∧ nameAt l (k - base) = n := by
  intro l
  induction l with
  | nil =>
      intro base k h
      exact absurd h (by rw [lastIdx]; simp)
  | cons v rest ih =>
      intro base k h
      rw [lastIdx] at h
      cases hL : lastIdx (base + 1) n rest with
      | some j =>
          rw [hL] at h
          dsimp only at h
          have hj : j = k := Option.some.inj h
          subst hj
          obtain ⟨h1, h2, h3⟩ := ih (base + 1) j hL
          refine ⟨by omega, by simp only [List.length_cons]; omega, ?_⟩
          have hidx : j - base = (j - (base + 1)) + 1 := by omega
          rw [hidx]
          exact h3
      | none =>
          rw [hL] at h
          dsimp only at h
          by_cases hv : v.name = n
          · rw [if_pos hv] at h
            have hb : base = k := Option.some.inj h
            subst hb
            refine ⟨le_refl base, by simp, ?_⟩
            have hz : base - base = 0 := by omega
            rw [hz]
            exact hv
          · rw [if_neg hv] at h
            exact absurd h (by simp)

theorem lastIdx_of_last (n : String) :
    ∀ (l : List Variable) (base p : Nat),
      p < l.length → nameAt l p = n →
      (∀ q, p < q → q < l.length → nameAt l q ≠ n) →
      lastIdx base n l = some (base + p) := by
  intro l
  induction l with
  | nil =>
      intro base p hp
      simp at hp
  | cons v rest ih =>
      intro base p hp hname hno
      rw [lastIdx]
      cases p with
      | zero =>
          have hnone : lastIdx (base + 1) n rest = none := by
            cases hL : lastIdx (base + 1) n rest with
            | none => rfl
            | some k =>
                obtain ⟨h1, h2, h3⟩ := lastIdx_some n rest (base + 1) k hL
                exact absurd h3 (hno (k - (base + 1) + 1) (by omega)
                  (by simp only [List.length_cons]; omega))
          rw [hnone]
          dsimp only
          have hv : v.name = n := hname
          rw [if_pos hv]
          simp
      | succ p2 =>
          have hres : lastIdx (base + 1) n rest = some (base + 1 + p2) := by
            apply ih (base + 1) p2
            · simp only [List.length_cons] at hp
              omega
            · exact hname
            · intro q hq hql
              exact hno (q + 1) (by omega) (by simp only [List.length_cons]; omega)
          rw [hres]
          dsimp only
          have he : base + 1 + p2 = base + (p2 + 1) := by omega
          rw [he]

theorem nameAt_take (vs : List Variable) (m k : Nat) (h : k < m) :
    nameAt (vs.take m) k = nameAt vs k := by
  unfold nameAt
  rw [List.getD_eq_getElem?_getD, List.getD_eq_getElem?_getD, List.getElem?_take, if_pos h]

/-- Positions marked as shadowed are exactly those with a later
occurrence of the same name. -/
theorem shadowMarks_spec (vs : List Variable) (k : Nat) :
    k ∈ shadowMarks [] 0 vs ↔
      k < vs.length ∧ ∃ j, k < j ∧ j < vs.length ∧ nameAt vs j = nameAt vs k := by
  rw [mem_shadowMarks_iff]
  constructor
  · rintro ⟨m, hm, hp⟩
    unfold prevOf at hp
    cases hL : lastIdx 0 (nameAt vs m) (vs.take m) with
    | none =>
        rw [hL] at hp
        exact absurd hp (by rw [alookup]; simp)
    | some j =>
        rw [hL] at hp
        have hj : j = k := Option.some.inj hp
        subst hj
        obtain ⟨h1, h2, h3⟩ := lastIdx_some (nameAt vs m) (vs.take m) 0 j hL
        have hz : j - 0 = j := by omega
        rw [hz] at h2 h3
        have hlen : (vs.take m).length = min m vs.length := List.length_take m vs
        have hjm : j < m := by omega
        have hjlen : j < vs.length := by omega
        have hnm : nameAt vs j = nameAt vs m := by
          rw [← nameAt_take vs m j hjm]
          exact h3
        exact ⟨hjlen, m, hjm, hm, hnm.symm⟩
  · rintro ⟨hk, j, hkj, hjl, hname⟩
    have hex : ∃ q, k < q ∧ q < vs.length ∧ nameAt vs q = nameAt vs k := ⟨j, hkj, hjl, hname⟩
    classical
    let m := Nat.find hex
    obtain ⟨hPm1, hPm2, hPm3⟩ := Nat.find_spec hex
    refine ⟨m, hPm2, ?_⟩
    unfold prevOf
    have hlast : lastIdx 0 (nameAt vs m) (vs.take m) = some (0 + k) := by
      apply lastIdx_of_last
      · rw [List.length_take]
        omega
      · rw [nameAt_take vs m k hPm1]
        exact hPm3.symm
      · intro q hq hql
        rw [List.length_take] at hql
        have hqm : q < m := by omega
        have hnq : ¬ (k < q ∧ q < vs.length ∧ nameAt vs q = nameAt vs k) :=
          Nat.find_min hex hqm
        rw [nameAt_take vs m q hqm]
        intro hcon
        exact hnq ⟨hq, by omega, by rw [hcon, hPm3]⟩
    rw [hlast]
    simp

theorem hasFlag_orFlag_self (f fl : Nat) (h : fl ≠ 0) : hasFlag (orFlag f fl) fl = true := by
  obtain ⟨i, hi⟩ := Nat.ne_zero_implies_bit_true h
  unfold hasFlag orFlag
  simp only [ne_eq, decide_eq_true_eq]
  intro h0
  have htb : ((f ||| fl) &&& fl).testBit i = true := by
    rw [Nat.testBit_and, Nat.testBit_or, hi]
    simp
  rw [h0] at htb
  simp [Nat.zero_testBit] at htb

theorem markShadowed_length (vs : List Variable) : (markShadowed vs).length = vs.length := by
  simp [markShadowed]

theorem markShadowed_getElem? (vs : List Variable) (k : Nat) :
    (markShadowed vs)[k]? = (vs[k]?).map (fun v =>
      if k ∈ shadowMarks [] 0 vs then
        v.updData (fun d => { d with flags := orFlag d.flags VariableShadowed })
      else v) := by
  unfold markShadowed
  rw [List.getElem?_map, List.getElem?_enum, Option.map_map]
  rfl

theorem nameAt_markShadowed (vs : List Variable) (k : Nat) :
    nameAt (markShadowed vs) k = nameAt vs k := by
  unfold nameAt
  rw [List.getD_eq_getElem?_getD, List.getD_eq_getElem?_getD, markShadowed_getElem?]
  cases h : vs[k]? with
  | none => rfl
  | some v =>
      have hred : ((some v).map (fun v =>
          if k ∈ shadowMarks [] 0 vs then
            v.updData (fun d => { d with flags := orFlag d.flags VariableShadowed })
          else v)).getD nilVariable
          = (if k ∈ shadowMarks [] 0 vs then
              v.updData (fun d => { d with flags := orFlag d.flags VariableShadowed })
            else v) := rfl
      rw [hred]
      by_cases hm : k ∈ shadowMarks [] 0 vs
      · rw [if_pos hm]
        rfl
      · rw [if_neg hm]
        rfl

theorem flag_markShadowed (vs : List Variable) (k : Nat) (hk : k < vs.length)
    (hini : hasFlag (vs.getD k nilVariable).flags VariableShadowed = false) :
    (hasFlag ((markShadowed vs).getD k nilVariable).flags VariableShadowed = true
      ↔ k ∈ shadowMarks [] 0 vs) := by
  have hsome : vs[k]? = some (vs.getD k nilVariable) := by
    rw [List.getD_eq_getElem?_getD]
    rw [List.getElem?_eq_getElem hk]
    rfl
  rw [List.getD_eq_getElem?_getD, markShadowed_getElem?, hsome]
  have hred : ((some (vs.getD k nilVariable)).map (fun v =>
      if k ∈ shadowMarks [] 0 vs then
        v.updData (fun d => { d with flags := orFlag d.flags VariableShadowed })
      else v)).getD nilVariable
      = (if k ∈ shadowMarks [] 0 vs then
          (vs.getD k nilVariable).updData
            (fun d => { d with flags := orFlag d.flags VariableShadowed })
        else vs.getD k nilVariable) := rfl
  rw [hred]
  by_cases hm : k ∈ shadowMarks [] 0 vs
  · rw [if_pos hm]
    constructor
    · intro _
      exact hm
    · intro _
      exact hasFlag_orFlag_self _ VariableShadowed (by decide)
  · rw [if_neg hm]
    constructor
    · intro h
      rw [hini] at h
      exact absurd h (by simp)
    · intro h
      exact absurd h hm

/-- The two-variable shadowing example from the spec: `x` declared at
depth 0 (line 10) and `x` declared at depth 1 (line 12). -/
def lvarX0 : Variable :=
  Variable.mk { defaultData with name := "x", declLine := 10, addr := 100 } [] []

def lvarX1 : Variable :=
  Variable.mk { defaultData with name := "x", declLine := 12, addr := 200 } [] []

def exampleLocals : List (Variable × Int) := [(lvarX0, 0), (lvarX1, 1)]

/-- **C8.** `Locals` stably sorts the visible variables by (lexical
depth, declaration line) — the sorted list is a sorted permutation of
the input preserving each equal-key class's relative order — and then
marks a variable shadowed exactly when another variable of the same
name appears later in the sorted order; `PushLocal` resolves a name to
the first variable with that name whose shadowed flag is clear.  In
particular for two entries named `x` at depths 0 and 1, both are
returned, the depth-0 entry is marked shadowed, and the lookup
resolves to the depth-1 entry. -/
theorem locals_shadowing (input : List (Variable × Int))
    (hnames : ∀ p ∈ input,
      ¬(1 < p.1.name.length ∧ p.1.name.toList.head? = some (Char.ofNat 38)))
    (hflags : ∀ p ∈ input, hasFlag p.1.flags VariableShadowed = false) :
    (List.insertionSort ddLE input).Perm input
    ∧ List.Sorted ddLE (List.insertionSort ddLE input)
    ∧ (∀ d ln : Int, (List.insertionSort ddLE input).filter
          (fun y => decide (y.2 = d ∧ y.1.declLine = ln))
        = input.filter (fun y => decide (y.2 = d ∧ y.1.declLine = ln)))
    ∧ (localsPostProcess input).length = input.length
    ∧ (∀ k, k < input.length →
        (hasFlag ((localsPostProcess input).getD k nilVariable).flags VariableShadowed = true
          ↔ ∃ j, k < j ∧ j < input.length
              ∧ nameAt (localsPostProcess input) j = nameAt (localsPostProcess input) k))
    ∧ localsPostProcess exampleLocals
        = [lvarX0.updData (fun d => { d with flags := orFlag d.flags VariableShadowed }),
           lvarX1]
    ∧ pushLocalLookup (localsPostProcess exampleLocals) "x" = some lvarX1
    ∧ hasFlag (lvarX0.updData
        (fun d => { d with flags := orFlag d.flags VariableShadowed })).flags
        VariableShadowed = true
    ∧ hasFlag lvarX1.flags VariableShadowed = false := by
  have hperm := List.perm_insertionSort ddLE input
  have hvs : (List.insertionSort ddLE input).map (fun p => escapeTransform p.1)
      = (List.insertionSort ddLE input).map (fun p => p.1) := by
    apply List.map_congr_left
    intro p hp
    have hpin : p ∈ input := (hperm.mem_iff).mp hp
    unfold escapeTransform
    rw [if_neg (hnames p hpin)]
  have hout : localsPostProcess input
      = markShadowed ((List.insertionSort ddLE input).map (fun p => p.1)) := by
    unfold localsPostProcess
    rw [hvs]
  have hlen : ((List.insertionSort ddLE input).map (fun p => p.1)).length = input.length := by
    rw [List.length_map]
    exact hperm.length_eq
  refine ⟨hperm, List.sorted_insertionSort ddLE input, ?_, ?_, ?_, by rfl, by rfl,
    hasFlag_orFlag_self _ VariableShadowed (by decide), rfl⟩
  · intro d ln
    apply filter_insertionSort
    intro a b hpa hba
    simp only [decide_eq_true_eq] at hpa
    apply decide_eq_false
    rw [ddLess_iff] at hba
    omega
  · rw [hout, markShadowed_length, hlen]
  · intro k hk
    set vs2 := (List.insertionSort ddLE input).map (fun p => p.1) with hvs2
    have hk2 : k < vs2.length := by rw [hlen]; exact hk
    have hini : hasFlag (vs2.getD k nilVariable).flags VariableShadowed = false := by
      have hmem : vs2.getD k nilVariable ∈ vs2 := by
        rw [List.getD_eq_getElem?_getD, List.getElem?_eq_getElem hk2]
        exact List.getElem_mem hk2
      obtain ⟨p, hp, hpe⟩ := List.mem_map.mp hmem
      rw [← hpe]
      exact hflags p ((hperm.mem_iff).mp hp)
    rw [hout]
    rw [flag_markShadowed vs2 k hk2 hini]
    rw [shadowMarks_spec vs2 k]
    have hnames2 : ∀ j, nameAt (markShadowed vs2) j = nameAt vs2 j :=
      fun j => nameAt_markShadowed vs2 j
    constructor
    · rintro ⟨hk3, j, hkj, hjl, hname⟩
      refine ⟨j, hkj, by rw [← hlen]; exact hjl, ?_⟩
      rw [hnames2 j, hnames2 k]
      exact hname
    · rintro ⟨j, hkj, hjl, hname⟩
      refine ⟨hk2, j, hkj, by rw [hlen]; exact hjl, ?_⟩
      rw [hnames2 j, hnames2 k] at hname
      exact hname

/-- Witness for C8: the theorem at the two-`x` example input. -/
theorem locals_shadowing_witness :
    (∀ p ∈ exampleLocals,
      ¬(1 < p.1.name.length ∧ p.1.name.toList.head? = some (Char.ofNat 38)))
    ∧ (∀ p ∈ exampleLocals, hasFlag p.1.flags VariableShadowed = false)
    ∧ pushLocalLookup (localsPostProcess exampleLocals) "x" = some lvarX1 :=
  ⟨by decide, by decide,
    (locals_shadowing exampleLocals (by decide) (by decide)).2.2.2.2.2.2.1⟩

end DelveEval
